import Mathlib

/-!
Verification of the workflow interpreter core of the repository
(`src/ultrarag/core/workflow_executor.py`): the `SimpleMustache` template
engine and the `WorkflowExecutor` step dispatcher, shallowly embedded in
Lean.  Python runtime values are modelled by the inductive type `Value`;
Python dicts are association lists with unique keys; Python floats are
abstracted to exact rationals (no theorem below depends on IEEE rounding
or on `repr` escape sequences).
-/

set_option maxHeartbeats 1600000

namespace WorkflowProof

/-- Model of a Python runtime value as used by the workflow executor. -/
inductive Value where
  | none
  | bool (b : Bool)
  | int (n : Int)
  | float (q : Rat)
  | str (s : String)
  | list (vs : List Value)
  | dict (entries : List (String × Value))

/-- Python `value is None`. -/
def Value.isNone : Value → Bool
  | .none => true
  | _ => false

mutual
/-- Computable structural size of a value (used as an always-sufficient
recursion bound where the executor's recursion follows value structure). -/
def vsize : Value → Nat
  | .list vs => 1 + vsizeL vs
  | .dict d => 1 + vsizeD d
  | _ => 1

def vsizeL : List Value → Nat
  | [] => 0
  | v :: r => 1 + vsize v + vsizeL r

def vsizeD : List (String × Value) → Nat
  | [] => 0
  | kv :: r => 1 + vsize kv.2 + vsizeD r
end

/-- First-match association-list lookup: Python `d[k]` / `k in d` for dicts,
whose keys are unique. -/
def dictGet (l : List (String × Value)) (k : String) : Option Value :=
  match l with
  | [] => Option.none
  | (k', v) :: rest => if k' = k then some v else dictGet rest k

/-- Python `d[k] = v`: overwrite the binding of `k` in place, else append. -/
def dictSet (l : List (String × Value)) (k : String) (v : Value) : List (String × Value) :=
  match l with
  | [] => [(k, v)]
  | (k', v') :: rest => if k' = k then (k', v) :: rest else (k', v') :: dictSet rest k v

/-- Python `d.update(src)`: assign every binding of `src` in order. -/
def dictUpdate (d src : List (String × Value)) : List (String × Value) :=
  src.foldl (fun acc kv => dictSet acc kv.1 kv.2) d

/-- Python whitespace as stripped by `str.strip()`. -/
def pySpaceChar (c : Char) : Bool :=
  c == ' ' || c == '\t' || c == '\n' || c == '\r' || c == '\x0b' || c == '\x0c'

/-- Python `s.strip()`. -/
def pyStrip (s : String) : String :=
  String.mk (((s.data.dropWhile pySpaceChar).reverse.dropWhile pySpaceChar).reverse)

/-- Python `s.startswith(pre)`. -/
def strStartsWith (s pre : String) : Bool := pre.data.isPrefixOf s.data

/-- Python `s.split(c)` for a one-character separator. -/
def splitOnChar (c : Char) : List Char → List String
  | [] => [""]
  | x :: rest =>
      let r := splitOnChar c rest
      if x = c then "" :: r
      else
        match r with
        | h :: t => String.mk (x :: h.data) :: t
        | [] => [String.mk [x]]

/-- Python `s.lower()` (ASCII model). -/
def pyLower (s : String) : String := String.mk (s.data.map Char.toLower)

/-- Python `s.replace(a, b)` for one-character arguments. -/
def pyReplaceChar (a b : Char) (s : String) : String :=
  String.mk (s.data.map (fun x => if x = a then b else x))

/-- `SimpleMustache._is_truthy`. -/
def isTruthy : Value → Bool
  | .none => false
  | .bool b => b
  | .int n => n != 0
  | .float q => q != 0
  | .str s =>
      !(pyLower s == "false" || pyLower s == "no" || pyLower s == "0" || pyLower s == "")
  | .list vs => vs.length > 0
  | .dict d => d.length > 0

/-- The loop body of `SimpleMustache._get_value` over the dotted-path parts. -/
def getValuePath : List String → Value → Value
  | [], v => v
  | p :: rest, .dict d =>
      match dictGet d p with
      | some v => getValuePath rest v
      | Option.none => .none
  | _ :: _, _ => .none

/-- `SimpleMustache._get_value`: dotted-path lookup.  Returns `Value.none`
both for lookup failure and for a stored Python `None`; the source conflates
the two (`return None`). -/
def getValue (key : String) (ctx : Value) : Value :=
  if key = "" then .none
  else
    let key' := if strStartsWith key "$" then key.drop 1 else key
    getValuePath (splitOnChar '.' key'.data) ctx

/-- Decimal digits of a rational in `[0,1)`, at most `n` of them. -/
def fracDigits : Nat → Rat → String
  | 0, _ => ""
  | n + 1, r =>
      if r = 0 then ""
      else
        let d := (r * 10).floor
        toString d ++ fracDigits n (r * 10 - d)

/-- Display form of an abstracted float (Python floats are modelled as exact
rationals, so this is a best-effort decimal rendering). -/
def floatStrNonneg (q : Rat) : String :=
  let ip := q.floor
  let frac := q - ip
  if frac = 0 then toString ip ++ ".0"
  else toString ip ++ "." ++ fracDigits 17 frac

def floatStr (q : Rat) : String :=
  if q < 0 then "-" ++ floatStrNonneg (-q) else floatStrNonneg q

mutual
/-- Python `repr()` of a value (string escaping inside `repr` is not
modelled; no theorem below depends on it). -/
def pyRepr : Value → String
  | .none => "None"
  | .bool b => if b then "True" else "False"
  | .int n => toString n
  | .float q => floatStr q
  | .str s => "'" ++ s ++ "'"
  | .list vs => "[" ++ String.intercalate ", " (pyReprList vs) ++ "]"
  | .dict d => "\x7b" ++ String.intercalate ", " (pyReprPairs d) ++ "\x7d"

def pyReprList : List Value → List String
  | [] => []
  | v :: rest => pyRepr v :: pyReprList rest

def pyReprPairs : List (String × Value) → List String
  | [] => []
  | kv :: rest => ("'" ++ kv.1 ++ "': " ++ pyRepr kv.2) :: pyReprPairs rest
end

/-- Python `str()` of a value. -/
def pyStr : Value → String
  | .str s => s
  | v => pyRepr v

/-- Length of the minimal group of a `\x7b\x7b(.*?)\x7d\x7d` variable token:
scans for the first closing `\x7d\x7d`, failing on a newline first (`.` does
not match a newline without `re.DOTALL`). -/
def scanLen : List Char → Option Nat
  | [] => Option.none
  | '}' :: '}' :: _ => some 0
  | c :: rest => if c = '\n' then Option.none else (scanLen rest).map (· + 1)

/-- Replacement for one variable token in `SimpleMustache._render_variables`:
the stripped key is looked up unless it starts with `#`, `^` or `/`; an
unresolved token (or a `None` value) is emitted unchanged. -/
def varRepl (ctx : Value) (g : List Char) : List Char :=
  let key := pyStrip (String.mk g)
  if strStartsWith key "#" || strStartsWith key "^" || strStartsWith key "/" then
    '{' :: '{' :: (g ++ ['}', '}'])
  else
    let v := getValue key ctx
    if v.isNone then '{' :: '{' :: (g ++ ['}', '}'])
    else (pyStr v).data

/-- `re.sub(r'\x7b\x7b(.*?)\x7d\x7d', replace_variable, template)`:
leftmost-first scan, replacement text is not rescanned.  The `fuel`
argument only drives the structural recursion: every recursive call
strictly shortens the scanned list, so `fuel = l.length` always suffices
and the out-of-fuel branch is unreachable from `renderVarsL`. -/
def renderVarsF (ctx : Value) : Nat → List Char → List Char
  | 0, l => l
  | fuel + 1, l =>
      match l with
      | [] => []
      | '{' :: '{' :: rest =>
          match scanLen rest with
          | some n => varRepl ctx (rest.take n) ++ renderVarsF ctx fuel (rest.drop (n + 2))
          | Option.none => '{' :: renderVarsF ctx fuel ('{' :: rest)
      | c :: rest => c :: renderVarsF ctx fuel rest

def renderVarsL (ctx : Value) (l : List Char) : List Char :=
  renderVarsF ctx l.length l

/-- Position of the first occurrence of `pat` in the list, if any. -/
def splitFirstLen (pat : List Char) : List Char → Option Nat
  | [] => Option.none
  | c :: rest =>
      if pat.isPrefixOf (c :: rest) then some 0
      else (splitFirstLen pat rest).map (· + 1)

/-- Backtracking search of the condition-block pattern
`\x7b\x7b#(.*?)\x7d\x7d(.*?)\x7b\x7b/\1\x7d\x7d` (with `re.DOTALL`) after
the literal `\x7b\x7b#` has been consumed: the first group grows from
length `i` upward (non-greedy with backtracking); for each candidate closed
by `\x7d\x7d` the earliest matching end tag is taken.  Returns the lengths
of the two groups.  `fuel = l.length + 2` bounds the candidate count. -/
def tryCondF (l : List Char) : Nat → Nat → Option (Nat × Nat)
  | 0, _ => Option.none
  | fuel + 1, i =>
      if l.length < i + 2 then Option.none
      else
        let g1 := l.take i
        if (l.drop i).take 2 = ['}', '}'] then
          match splitFirstLen ('{' :: '{' :: '/' :: (g1 ++ ['}', '}'])) (l.drop (i + 2)) with
          | some n2 => some (i, n2)
          | Option.none => tryCondF l fuel (i + 1)
        else tryCondF l fuel (i + 1)

def tryCond (l : List Char) (i : Nat) : Option (Nat × Nat) :=
  tryCondF l (l.length + 2) i

/-- `re.sub` of the condition-block pattern, as in
`SimpleMustache._render_condition_blocks`: a truthy stripped key keeps the
block content, a falsy one erases it; scanning continues after the match.
Every recursive call strictly shortens the list, so `fuel = l.length`
suffices. -/
def renderCondsF (ctx : Value) : Nat → List Char → List Char
  | 0, l => l
  | fuel + 1, l =>
      match l with
      | [] => []
      | '{' :: '{' :: '#' :: rest =>
          match tryCond rest 0 with
          | some nn =>
              let g1 := rest.take nn.1
              let g2 := (rest.drop (nn.1 + 2)).take nn.2
              let r2 := (rest.drop (nn.1 + 2)).drop (nn.2 + (nn.1 + 5))
              (if isTruthy (getValue (pyStrip (String.mk g1)) ctx) then g2 else []) ++
                renderCondsF ctx fuel r2
          | Option.none => '{' :: renderCondsF ctx fuel ('{' :: '#' :: rest)
      | c :: rest => c :: renderCondsF ctx fuel rest

def renderCondsL (ctx : Value) (l : List Char) : List Char :=
  renderCondsF ctx l.length l

/-- `SimpleMustache._render_variables`. -/
def renderVariables (template : String) (ctx : Value) : String :=
  String.mk (renderVarsL ctx template.data)

/-- `SimpleMustache._render_condition_blocks`. -/
def renderConditionBlocks (template : String) (ctx : Value) : String :=
  String.mk (renderCondsL ctx template.data)

/-- `SimpleMustache.render`: empty-template guard, then the variable pass,
then the condition-block pass — this order is what the source does. -/
def render (template : String) (ctx : Value) : String :=
  if template = "" then template
  else renderConditionBlocks (renderVariables template ctx) ctx

/-- Modelled from the spec's words for claim C1: the composition that
resolves every conditional block first and performs variable substitution
on the intermediate result. -/
def renderSpecOrder (template : String) (ctx : Value) : String :=
  renderVariables (renderConditionBlocks template ctx) ctx

/-- The group of `re.match(r'^\x7b\x7b(.*)\x7d\x7d$', s)` (greedy `.*`, no
DOTALL, applied to an already stripped string): everything between the
opening braces and a final `\x7d\x7d`, newline-free. -/
def stripClose : List Char → Option (List Char)
  | ['}', '}'] => some []
  | c :: rest => if c = '\n' then Option.none else (stripClose rest).map (c :: ·)
  | [] => Option.none

def pureVarGroup (s : String) : Option String :=
  match s.data with
  | '{' :: '{' :: t => (stripClose t).map String.mk
  | _ => Option.none

/-- Python `pat in s` on lists of characters. -/
def containsSub (pat : List Char) : List Char → Bool
  | [] => pat.isPrefixOf []
  | c :: rest => pat.isPrefixOf (c :: rest) || containsSub pat rest

def strContains (pat s : String) : Bool := containsSub pat.data s.data

/-- Per-entry transform of `WorkflowExecutor._resolve_inputs_with_mustache`:
strings containing `\x7b\x7b` or `\x7d\x7d` are either passed through the
pure-variable match (typed lookup, original string when the lookup fails)
or rendered as a template; everything else is stored unchanged. -/
def resolveInputValue (ctx : Value) (v : Value) : Value :=
  match v with
  | .str s =>
      if strContains "\x7b\x7b" s || strContains "\x7d\x7d" s then
        match pureVarGroup (pyStrip s) with
        | some g =>
            let rv := getValue (pyStrip g) ctx
            if rv.isNone then .str s else rv
        | Option.none => .str (render s ctx)
      else .str s
  | v' => v'

/-- `WorkflowExecutor._resolve_inputs_with_mustache`. -/
def resolveInputs (inputs : List (String × Value)) (ctx : Value) : List (String × Value) :=
  inputs.map (fun kv => (kv.1, resolveInputValue ctx kv.2))

/-! ## The workflow executor -/

/-- Python exceptions as seen by the dispatcher: `ValueError` is
distinguished because `_validate_input` catches exactly that class;
`KeyboardInterrupt` is not an `Exception` subclass, so it escapes every
`except Exception` clause. All other exception classes (`TypeError`,
`KeyError`, `AttributeError`, `NameError`, `EOFError`, ...) behave alike
here and are collapsed into `err` with their message. -/
inductive PyExn where
  | err (msg : String)
  | valueErr (msg : String)
  | interrupt

/-- One event of the interactive-input stream: a line typed by the user or
a user cancellation (Ctrl-C).  An exhausted stream raises `EOFError`. -/
inductive InputEvent where
  | line (s : String)
  | interrupt

/-- The mutable attributes of one `WorkflowExecutor` instance, plus the
input stream and a ghost log of `call_tool_method` invocations (pure
instrumentation for observability claims; no behavior reads it). -/
structure ExecState where
  storedData : List (String × Value)
  results : List (String × Value)
  toolMapping : List (String × Value)
  serverInitialized : Bool
  inputQueue : List InputEvent
  toolCalls : List (Value × Value × List (String × Value))

/-- External collaborators: `agents` is `agent_manager.list_agents()`,
`hasAgent name` is whether `get_agent(name)` returns a non-`None` agent,
and `toolCall` is `server_manager.call_tool_method`. -/
structure Env where
  agents : List String
  hasAgent : String → Bool
  toolCall : Value → Value → List (String × Value) → Except PyExn Value

/-- State+exception monad of the executor: state mutations made before an
exception persist, exactly as attribute mutations do in Python. -/
abbrev M (α : Type) := ExceptT PyExn (StateM ExecState) α

def liftE {α} (e : Except PyExn α) : M α :=
  match e with
  | .ok a => pure a
  | .error x => throw x

def throwErr {α} (msg : String) : M α := throw (PyExn.err msg)

/-- Python truthiness `bool(v)` (this is not `_is_truthy`: for example
`bool("false")` is `True`). -/
def pyTruthy : Value → Bool
  | .none => false
  | .bool b => b
  | .int n => n != 0
  | .float q => q != 0
  | .str s => s != ""
  | .list vs => vs.length > 0
  | .dict d => d.length > 0

/-- Python `obj.get(key, default)`: only dicts have `.get`. -/
def pyGet (obj : Value) (k : String) (dflt : Value) : Except PyExn Value :=
  match obj with
  | .dict d => .ok ((dictGet d k).getD dflt)
  | _ => .error (.err "AttributeError: no attribute get")

/-- Python `obj[key]` for a string key. -/
def pyItem (obj : Value) (k : String) : Except PyExn Value :=
  match obj with
  | .dict d =>
      match dictGet d k with
      | some v => .ok v
      | Option.none => .error (.err ("KeyError: " ++ k))
  | _ => .error (.err "TypeError: object is not subscriptable")

/-- Python `v in l` for a list of registry names (`list_agents()`): list
membership uses `==`, and a non-string value never equals a string. -/
def valInStrList (v : Value) (l : List String) : Bool :=
  match v with
  | .str s => l.contains s
  | _ => false

/-- Python `v in d` for a dict: dict membership hashes the value, so an
unhashable value raises; other non-string hashables simply never equal a
string key. -/
def dictHasKey (m : List (String × Value)) (v : Value) : Except PyExn Bool :=
  match v with
  | .str s => .ok ((dictGet m s).isSome)
  | .dict _ => .error (.err "TypeError: unhashable type: 'dict'")
  | .list _ => .error (.err "TypeError: unhashable type: 'list'")
  | _ => .ok false

/-- The numeric value of a Python number (`bool` counts as a number). -/
def toNum : Value → Option Rat
  | .bool b => some (if b then 1 else 0)
  | .int n => some (n : Rat)
  | .float q => some q
  | _ => Option.none

mutual
/-- Python `==` between runtime values (numeric kinds compare by value,
`True == 1`; dict equality compares items and, with the unique keys of
this model, is order-insensitive containment plus equal size). -/
def pyEq : Value → Value → Bool
  | .none, b => b.isNone
  | .str x, b => (match b with | .str y => x == y | _ => false)
  | .list xs, b => (match b with | .list ys => pyEqList xs ys | _ => false)
  | .dict xs, b =>
      (match b with
       | .dict ys => xs.length == ys.length && pyEqDictIncl xs ys
       | _ => false)
  | x, y =>
      match toNum x, toNum y with
      | some u, some v => u == v
      | _, _ => false

def pyEqList : List Value → List Value → Bool
  | [], ys => ys.isEmpty
  | x :: xs, ys =>
      (match ys with
       | y :: ys' => pyEq x y && pyEqList xs ys'
       | [] => false)

/-- One-sided dict containment; with unique keys and equal lengths this is
Python dict equality. -/
def pyEqDictIncl : List (String × Value) → List (String × Value) → Bool
  | [], _ => true
  | kv :: rest, ys =>
      (match dictGet ys kv.1 with
       | some w => pyEq kv.2 w
       | Option.none => false) && pyEqDictIncl rest ys
end

/-- Python `x < v` for a number `x` against an arbitrary value. -/
def pyLtNum (x : Rat) (v : Value) : Except PyExn Bool :=
  match toNum v with
  | some y => .ok (x < y)
  | Option.none => .error (.err "TypeError: comparison not supported")

/-- Python `x > v` for a number `x` against an arbitrary value. -/
def pyGtNum (x : Rat) (v : Value) : Except PyExn Bool :=
  match toNum v with
  | some y => .ok (y < x)
  | Option.none => .error (.err "TypeError: comparison not supported")

/-- Python `len(v)`. -/
def pyLen (v : Value) : Except PyExn Int :=
  match v with
  | .str s => .ok s.length
  | .list vs => .ok vs.length
  | .dict d => .ok d.length
  | _ => .error (.err "TypeError: object has no len()")

/-- Numeric value of a list of decimal digits. -/
def digitsToNat (l : List Char) : Nat :=
  l.foldl (fun a c => a * 10 + (c.toNat - 48)) 0

/-- Python `int(str)` literal syntax (underscore grouping not modelled). -/
def pyParseInt (s : String) : Option Int :=
  let t := (pyStrip s).data
  match t with
  | '+' :: r => if r ≠ [] ∧ r.all Char.isDigit then some (digitsToNat r) else Option.none
  | '-' :: r => if r ≠ [] ∧ r.all Char.isDigit then some (-(digitsToNat r : Int)) else Option.none
  | r => if r ≠ [] ∧ r.all Char.isDigit then some (digitsToNat r) else Option.none

/-- Python truncation toward zero, as in `int(float)`. -/
def pyTrunc (q : Rat) : Int := if q < 0 then q.ceil else q.floor

/-- Python `int(value)`: `ValueError` on a bad string literal, `TypeError`
on a non-numeric non-string. -/
def pyToInt (v : Value) : Except PyExn Int :=
  match v with
  | .int n => .ok n
  | .bool b => .ok (if b then 1 else 0)
  | .float q => .ok (pyTrunc q)
  | .str s =>
      match pyParseInt s with
      | some n => .ok n
      | Option.none => .error (.valueErr ("invalid literal for int() with base 10: '" ++ s ++ "'"))
  | _ => .error (.err "TypeError: int() argument must be a string or a number")

/-- Mantissa/exponent split of an unsigned float literal. -/
def parseUnsignedFloat (l : List Char) : Option Rat :=
  let split := splitFirstLen ['e'] l
  let split' := match split with
    | some i => some i
    | Option.none => splitFirstLen ['E'] l
  let (mant, expo) := match split' with
    | some i => (l.take i, some (l.drop (i + 1)))
    | Option.none => (l, Option.none)
  let mantVal : Option Rat :=
    match splitFirstLen ['.'] mant with
    | some i =>
        let ip := mant.take i
        let fp := mant.drop (i + 1)
        if (ip ≠ [] ∨ fp ≠ []) ∧ ip.all Char.isDigit ∧ fp.all Char.isDigit then
          some ((digitsToNat ip : Rat) + (digitsToNat fp : Rat) / ((10 : Rat) ^ fp.length))
        else Option.none
    | Option.none =>
        if mant ≠ [] ∧ mant.all Char.isDigit then some (digitsToNat mant : Rat) else Option.none
  match mantVal, expo with
  | some m, Option.none => some m
  | some m, some e =>
      let (sgn, ds) : Int × List Char := match e with
        | '+' :: r => (1, r)
        | '-' :: r => (-1, r)
        | r => (1, r)
      if ds ≠ [] ∧ ds.all Char.isDigit then
        let p : Rat := (10 : Rat) ^ (digitsToNat ds)
        some (if sgn = 1 then m * p else m / p)
      else Option.none
  | Option.none, _ => Option.none

/-- Python `float(str)` (the `inf`/`nan` spellings are not modelled, floats
being abstracted to rationals). -/
def pyParseFloat (s : String) : Option Rat :=
  match (pyStrip s).data with
  | '+' :: r => parseUnsignedFloat r
  | '-' :: r => (parseUnsignedFloat r).map (fun q => -q)
  | r => parseUnsignedFloat r

/-- Python `float(value)`. -/
def pyToFloat (v : Value) : Except PyExn Rat :=
  match v with
  | .int n => .ok (n : Rat)
  | .bool b => .ok (if b then 1 else 0)
  | .float q => .ok q
  | .str s =>
      match pyParseFloat s with
      | some q => .ok q
      | Option.none => .error (.valueErr ("could not convert string to float: '" ++ s ++ "'"))
  | _ => .error (.err "TypeError: float() argument must be a string or a number")

/-- Python `value in container` (`not in` is its negation). -/
def pyContains (container : Value) (x : Value) : Except PyExn Bool :=
  match container with
  | .list vs => .ok (vs.any (fun el => pyEq x el))
  | .str s =>
      match x with
      | .str sub => .ok (strContains sub s)
      | _ => .error (.err "TypeError: in requires string as left operand")
  | .dict d => dictHasKey d x
  | _ => .error (.err "TypeError: argument is not iterable")

/-- Python `sep.join(v)`. -/
def pyJoin (sep : String) (v : Value) : Except PyExn String :=
  match v with
  | .list vs =>
      if vs.all (fun x => match x with | .str _ => true | _ => false) then
        .ok (String.intercalate sep (vs.map (fun x => match x with | .str s => s | _ => "")))
      else .error (.err "TypeError: sequence item: expected str instance")
  | .str s => .ok (String.intercalate sep (s.data.map (fun c => String.mk [c])))
  | _ => .error (.err "TypeError: can only join an iterable")

/-! ### The result formatter (`_format_analysis_result` and friends) -/

/-- `str.title()` after `replace('_',' ')` (ASCII word boundaries). -/
def pyTitle (s : String) : String :=
  String.mk ((s.data.foldl (fun acc c =>
    let c' := if c.isAlpha then (if acc.2 then c.toLower else c.toUpper) else c
    (acc.1 ++ [c'], c.isAlpha)) (([] : List Char), false)).1)

def keyTitle (k : String) : String := pyTitle (pyReplaceChar '_' ' ' k)

/-- Digit grouping of `f"\x7bn:,\x7d"`, on the reversed digit list.
`fuel = l.length` always suffices. -/
def commaGroupRevF : Nat → List Char → List Char
  | 0, l => l
  | fuel + 1, l =>
      if l.length ≤ 3 then l
      else (l.take 3) ++ ',' :: commaGroupRevF fuel (l.drop 3)

def commaGroupRev (l : List Char) : List Char := commaGroupRevF l.length l

/-- `f"\x7bn:,\x7d"`: an integer with thousands separators. -/
def intComma (n : Int) : String :=
  (if n < 0 then "-" else "") ++
    String.mk (commaGroupRev (toString n.natAbs).data.reverse).reverse

/-- Round half to even, for 4-decimal float formatting. -/
def roundHalfEven (r : Rat) : Int :=
  let f := r.floor
  let d := r - (f : Rat)
  if d < 1/2 then f
  else if 1/2 < d then f + 1
  else if f % 2 = 0 then f else f + 1

def pad4 (n : Int) : String :=
  let s := toString n.natAbs
  String.mk (List.replicate (4 - s.length) '0') ++ s

/-- `f"\x7bq:,.4f\x7d"` on the abstracted float. -/
def floatComma4 (q : Rat) : String :=
  let sign := if q < 0 then "-" else ""
  let m := roundHalfEven (|q| * 10000)
  sign ++ intComma (m / 10000) ++ "." ++ pad4 (m % 10000)

/-- Numeric branch of `_format_analysis_result`:
`f"\x7bvalue:,.4f\x7d" if value != int(value) else f"\x7bint(value):,\x7d"`
(a `bool` is an `int` in Python). -/
def formatNumber : Value → String
  | .int n => intComma n
  | .bool b => intComma (if b then 1 else 0)
  | .float q => if q = (pyTrunc q : Rat) then intComma (pyTrunc q) else floatComma4 q
  | _ => ""

/-- Keys skipped by `_format_analysis_result` at any depth. -/
def skipKeys : List String := ["success", "timestamp", "analysis_type", "data_type", "result"]

def indentOf (level : Nat) : String := String.mk (List.replicate (2 * level) ' ')

/-- Whether a value is rendered through the number branch
(`isinstance(value, (int, float))`). -/
def isPyNum : Value → Bool
  | .int _ => true
  | .bool _ => true
  | .float _ => true
  | _ => false

mutual
/-- The entry loop of `_format_analysis_result`.  A recursive call always
has `level ≥ 1`, so the level-0 `analysis` pass-through of
`_format_analysis_result` cannot fire there and the recursion goes
directly through this loop. -/
def formatEntries : List (String × Value) → Nat → List String
  | [], _ => []
  | kv :: rest, level =>
      (if skipKeys.contains kv.1 then [] else formatOne kv.1 kv.2 level) ++
        formatEntries rest level

/-- Formatting of one entry: dict entries recurse one level deeper, list
entries two levels deeper, scalars become bullets. -/
def formatOne (k : String) (v : Value) (level : Nat) : List String :=
  let indent := indentOf level
  match v with
  | .dict d =>
      (indent ++ "🔹 **" ++ keyTitle k ++ "**:") :: formatEntries d (level + 1)
  | .list items =>
      (indent ++ "🔹 **" ++ keyTitle k ++ "**: (共" ++ toString items.length ++ "项)") ::
        formatListItems items level indent
  | v' =>
      if isPyNum v' then [indent ++ "• " ++ keyTitle k ++ ": " ++ formatNumber v']
      else [indent ++ "• " ++ keyTitle k ++ ": " ++ pyStr v']

def formatListItems : List Value → Nat → String → List String
  | [], _, _ => []
  | item :: rest, level, indent =>
      (match item with
       | .dict d => (indent ++ "  -") :: formatEntries d (level + 2)
       | it => [indent ++ "  - " ++ pyStr it]) ++
        formatListItems rest level indent
end

/-- `WorkflowExecutor._format_analysis_result`: the level-0 `analysis`
pass-through, then the per-entry loop. -/
def formatAnalysisResult (data : List (String × Value)) (level : Nat) : List String :=
  match level, dictGet data "analysis" with
  | 0, some (.str s) => [pyStrip s]
  | _, _ => formatEntries data level

/-- DOTALL variant of the variable-token scan, used by
`_format_tool_results_in_message` (its pattern carries `re.DOTALL`). -/
def scanLenD : List Char → Option Nat
  | [] => Option.none
  | '}' :: '}' :: _ => some 0
  | _ :: rest => (scanLenD rest).map (· + 1)

/-- `replace_and_format` of `_format_tool_results_in_message`: a nonempty
dict value becomes a titled formatted block, everything else falls back to
`SimpleMustache.render` on the single token. -/
def formatMsgRepl (ctx : Value) (g : List Char) : List Char :=
  let varKey := pyStrip (String.mk g)
  let v := getValue varKey ctx
  match v with
  | .dict d =>
      if d.length > 0 then
        let lastSeg := (splitOnChar '.' varKey.data).getLastD ""
        let title :=
          match dictGet d "analysis" with
          | some (.str _) => "AI 深度分析"
          | _ => keyTitle lastSeg
        let header := "\n\n## " ++ title
        let sep := String.mk (List.replicate title.length '─')
        (header ++ "\n" ++ sep ++ "\n" ++
          String.intercalate "\n" (formatAnalysisResult d 0)).data
      else (render (String.mk ('{' :: '{' :: (g ++ ['}', '}']))) ctx).data
  | _ => (render (String.mk ('{' :: '{' :: (g ++ ['}', '}']))) ctx).data

/-- The `re.sub` loop of `_format_tool_results_in_message`.
`fuel = l.length` always suffices. -/
def formatMsgF (ctx : Value) : Nat → List Char → List Char
  | 0, l => l
  | fuel + 1, l =>
      match l with
      | [] => []
      | '{' :: '{' :: rest =>
          match scanLenD rest with
          | some n => formatMsgRepl ctx (rest.take n) ++ formatMsgF ctx fuel (rest.drop (n + 2))
          | Option.none => '{' :: formatMsgF ctx fuel ('{' :: rest)
      | c :: rest => c :: formatMsgF ctx fuel rest

def formatMsgL (ctx : Value) (l : List Char) : List Char := formatMsgF ctx l.length l

/-- `WorkflowExecutor._format_tool_results_in_message`. -/
def formatToolResultsInMessage (message : String) (ctx : Value) : String :=
  String.mk (formatMsgL ctx message.data)

/-! ### Step handlers -/

/-- `\x7b"success": False, "error": e\x7d` with an arbitrary error value. -/
def failDictV (e : Value) : Value := .dict [("success", .bool false), ("error", e)]

/-- `\x7b"success": False, "error": msg\x7d`. -/
def failDict (msg : String) : Value := failDictV (.str msg)

/-- `\x7b"success": True, "result": r\x7d`. -/
def okDict (r : Value) : Value := .dict [("success", .bool true), ("result", r)]

/-- `step.get("step", default)` as a results key.  The results dict is
modelled with string keys; a present non-string name is mapped to `none`
and fails at assignment time (in Python an unhashable name fails there
too; hashable non-string names are outside this model). -/
def stepNameOf (entries : List (String × Value)) (dflt : String) : Option String :=
  match dictGet entries "step" with
  | some (.str s) => some s
  | some _ => Option.none
  | Option.none => some dflt

/-- `self.results[name] = v`. -/
def setResult (name : Option String) (v : Value) : M Unit :=
  match name with
  | some n => modify (fun st => { st with results := dictSet st.results n v })
  | Option.none => throwErr "TypeError: unhashable step name"

/-- `self.stored_data[name] = v` keyed by a step name. -/
def setStoredName (name : Option String) (v : Value) : M Unit :=
  match name with
  | some n => modify (fun st => { st with storedData := dictSet st.storedData n v })
  | Option.none => throwErr "TypeError: unhashable variable name"

/-- `self.stored_data[key] = v` keyed by an arbitrary value. -/
def setStored (key : Value) (v : Value) : M Unit :=
  match key with
  | .str s => modify (fun st => { st with storedData := dictSet st.storedData s v })
  | _ => throwErr "TypeError: unhashable variable name"

/-- The value each recorded step contributes to the template context:
`results[k].result` when the result is a dict with a `result` key, the raw
result otherwise. -/
def resultView (v : Value) : Value :=
  match v with
  | .dict d =>
      match dictGet d "result" with
      | some r => r
      | Option.none => v
  | _ => v

/-- `WorkflowExecutor._build_full_context`.  The caller-supplied ad hoc
context is a dict or `None`; both `None` and `\x7b\x7d` fail the
`if context:` truthiness test and are represented by `[]`. -/
def buildFullContext (storedData results : List (String × Value))
    (ctx : List (String × Value)) : List (String × Value) :=
  let fc := dictUpdate [] storedData
  let fc := results.foldl (fun acc kv => dictSet acc kv.1 (resultView kv.2)) fc
  let fc := if ctx.length > 0 then dictUpdate fc ctx else fc
  dictUpdate fc [("stored_data", .dict storedData), ("results", .dict results)]

/-- Current full template context as a lookup value. -/
def fullContextNow (ctx : List (String × Value)) : M Value := do
  let st ← get
  pure (Value.dict (buildFullContext st.storedData st.results ctx))

/-- Python `input()` against the modelled input stream. -/
def popInput : M String := do
  let st ← get
  match st.inputQueue with
  | [] => throwErr "EOFError"
  | .line s :: rest => do
      set { st with inputQueue := rest }
      pure s
  | .interrupt :: rest => do
      set { st with inputQueue := rest }
      throw PyExn.interrupt

/-- `_resolve_inputs_with_mustache(inputs, ctx)` on a raw `inputs` value:
a non-dict has no `.items()`. -/
def resolveInputsV (inputs : Value) (ctx : Value) : Except PyExn (List (String × Value)) :=
  match inputs with
  | .dict d => .ok (resolveInputs d ctx)
  | _ => .error (.err "AttributeError: no attribute items")

/-- `WorkflowExecutor._execute_print_step`. -/
def executePrintStep (entries : List (String × Value)) (ctx : List (String × Value)) : M Value :=
  tryCatch
    (do
      let config := (dictGet entries "config").getD (.dict [])
      let message ← liftE (pyGet config "message" (.str ""))
      let full ← fullContextNow ctx
      let resolved1 ← (match message with
        | .str s => pure (formatToolResultsInMessage s full)
        | _ => throwErr "TypeError: expected string or bytes-like object")
      let resolved := render resolved1 full
      let result := okDict (.str resolved)
      setResult (stepNameOf entries "print_step") result
      pure result)
    (fun e => match e with
      | .interrupt => throw PyExn.interrupt
      | .err m => do
          let result := failDict ("打印步骤失败: " ++ m)
          setResult (stepNameOf entries "print_step") result
          pure result
      | .valueErr m => do
          let result := failDict ("打印步骤失败: " ++ m)
          setResult (stepNameOf entries "print_step") result
          pure result)

/-- The body of `_validate_input`'s `try` block (branching on the declared
input type).  Exceptions other than `ValueError` propagate to the caller. -/
def validateBody (value : Value) (config : Value) (inputType : Value) :
    Except PyExn (Bool × Value × String) := do
  if pyEq inputType (.str "string") then do
    let minL ← pyGet config "min_length" .none
    let maxL ← pyGet config "max_length" .none
    if pyTruthy minL then do
      let n ← pyLen value
      let lt ← pyLtNum (n : Rat) minL
      if lt then return (false, .none, "输入长度不能少于 " ++ pyStr minL ++ " 个字符")
    if pyTruthy maxL then do
      let n ← pyLen value
      let gt ← pyGtNum (n : Rat) maxL
      if gt then return (false, .none, "输入长度不能超过 " ++ pyStr maxL ++ " 个字符")
    return (true, value, "")
  else if pyEq inputType (.str "integer") then do
    let n ← pyToInt value
    let minV ← pyGet config "min" .none
    let maxV ← pyGet config "max" .none
    if !minV.isNone then do
      let lt ← pyLtNum (n : Rat) minV
      if lt then return (false, .none, "数值不能小于 " ++ pyStr minV)
    if !maxV.isNone then do
      let gt ← pyGtNum (n : Rat) maxV
      if gt then return (false, .none, "数值不能大于 " ++ pyStr maxV)
    return (true, .int n, "")
  else if pyEq inputType (.str "float") then do
    let q ← pyToFloat value
    let minV ← pyGet config "min" .none
    let maxV ← pyGet config "max" .none
    if !minV.isNone then do
      let lt ← pyLtNum q minV
      if lt then return (false, .none, "数值不能小于 " ++ pyStr minV)
    if !maxV.isNone then do
      let gt ← pyGtNum q maxV
      if gt then return (false, .none, "数值不能大于 " ++ pyStr maxV)
    return (true, .float q, "")
  else if pyEq inputType (.str "choice") then do
    let choices ← pyGet config "choices" (.list [])
    let inb ← pyContains choices value
    if !inb then do
      let joined ← pyJoin ", " choices
      return (false, .none, "请输入有效的选项: " ++ joined)
    return (true, value, "")
  else
    return (true, value, "")

/-- `WorkflowExecutor._validate_input`: required/empty checks, then the
typed branch with `except ValueError` converted into a failure triple. -/
def validateInput (value : Value) (config : Value) : Except PyExn (Bool × Value × String) := do
  let inputType ← pyGet config "type" (.str "string")
  let required ← pyGet config "required" (.bool false)
  if pyTruthy required && !pyTruthy value then
    return (false, .none, "此字段为必填项")
  if !pyTruthy value && !pyTruthy required then
    return (true, .none, "")
  match validateBody value config inputType with
  | .error (.valueErr m) => .ok (false, .none, "输入格式错误: " ++ m)
  | other => other

/-- `WorkflowExecutor._execute_input_step`. -/
def executeInputStep (entries : List (String × Value)) : M Value :=
  let name := stepNameOf entries "input_step"
  tryCatch
    (do
      let config := (dictGet entries "config").getD (.dict [])
      let prompt ← liftE (pyGet config "prompt" (.str "请输入:"))
      let varName := (dictGet entries "output").getD .none
      let defaultValue ← liftE (pyGet config "default" (.str ""))
      if !pyTruthy varName then do
        setResult name (failDict "输入步骤缺少 output 字段")
        pure Value.none
      else do
        -- full_prompt = prompt; a truthy default is appended with `+=`,
        -- which needs prompt to be a string
        if pyTruthy defaultValue then
          match prompt with
          | .str _ => pure ()
          | _ => throwErr "TypeError: can only concatenate str"
        else pure ()
        let line ← popInput
        let rawInput := Value.str (pyStrip line)
        let userInput := if !pyTruthy rawInput && pyTruthy defaultValue then defaultValue else rawInput
        let vres ← liftE (validateInput userInput config)
        if vres.1 then do
          let stored := if vres.2.1.isNone then userInput else vres.2.1
          setStored varName stored
          setResult name (okDict stored)
          pure stored
        else do
          setResult name (failDict ("输入验证失败: " ++ vres.2.2))
          pure Value.none)
    (fun e => match e with
      | .interrupt => do
          setResult name (failDict "用户取消输入")
          throw PyExn.interrupt
      | .err m => do
          setResult name (failDict ("输入步骤失败: " ++ m))
          pure Value.none
      | .valueErr m => do
          setResult name (failDict ("输入步骤失败: " ++ m))
          pure Value.none)

/-- `WorkflowExecutor._execute_set_variable_step` (no try/except of its
own: exceptions escape to the dispatcher). -/
def executeSetVariableStep (entries : List (String × Value)) (ctx : List (String × Value)) : M Value := do
  let name := stepNameOf entries "set_variable_step"
  let config := (dictGet entries "config").getD (.dict [])
  let varName ← liftE (pyGet config "variable" .none)
  let value ← liftE (pyGet config "value" .none)
  if !pyTruthy varName then do
    setResult name (failDict "设置变量步骤缺少 variable 字段")
    pure Value.none
  else do
    let full ← fullContextNow ctx
    let resolved := match value with
      | .str s => Value.str (render s full)
      | v => v
    setStored varName resolved
    let result := okDict resolved
    setResult name result
    pure result

/-- `WorkflowExecutor._execute_agent_step`.  The source invokes
`asyncio.run(agent.execute(...))` but never imports `asyncio`, so reaching
the invocation raises `NameError`, which the handler's own
`except Exception` converts into a failure result. -/
def executeAgentStep (env : Env) (entries : List (String × Value)) (ctx : List (String × Value)) : M Value := do
  let name := stepNameOf entries "未知步骤"
  let agentName := (dictGet entries "agent").getD .none
  let inputs := (dictGet entries "inputs").getD (.dict [])
  if !valInStrList agentName env.agents then do
    setResult name (failDict ("Agent未注册: " ++ pyStr agentName ++ "，可用Agent: " ++
      pyStr (.list (env.agents.map Value.str))))
    pure Value.none
  else
    tryCatch
      (do
        let agentOk := match agentName with | .str s => env.hasAgent s | _ => false
        if !agentOk then do
          setResult name (failDict ("Agent获取失败: " ++ pyStr agentName))
          pure Value.none
        else do
          let full ← fullContextNow ctx
          let _resolvedInputs ← liftE (resolveInputsV inputs full)
          -- result = asyncio.run(agent.execute(resolved_inputs))
          throwErr "NameError: name 'asyncio' is not defined")
      (fun e => match e with
        | .interrupt => throw PyExn.interrupt
        | .err m => do
            setResult name (failDict ("Agent执行失败: " ++ m))
            pure Value.none
        | .valueErr m => do
            setResult name (failDict ("Agent执行失败: " ++ m))
            pure Value.none)

/-- `WorkflowExecutor._execute_tool_step` — the second definition in the
class body, which overrides the earlier dead one.  A tool name registered
as an agent is redirected to the agent handler with `agent := tool`. -/
def executeToolStep (env : Env) (entries : List (String × Value)) (ctx : List (String × Value)) : M Value := do
  let name := stepNameOf entries "未知步骤"
  let toolName := (dictGet entries "tool").getD .none
  let inputs := (dictGet entries "inputs").getD (.dict [])
  let method := (dictGet entries "method").getD (.str "execute")
  if valInStrList toolName env.agents then
    executeAgentStep env (dictSet entries "agent" toolName) ctx
  else do
    let st0 ← get
    if !st0.serverInitialized then do
      setResult name (failDict ("传统工具未初始化: " ++ pyStr toolName))
      pure Value.none
    else do
      let inMap ← liftE (dictHasKey st0.toolMapping toolName)
      if !inMap then do
        setResult name (failDict ("工具未找到: " ++ pyStr toolName))
        pure Value.none
      else do
        let serverType := match toolName with
          | .str s => (dictGet st0.toolMapping s).getD .none
          | _ => .none
        tryCatch
          (do
            let full ← fullContextNow ctx
            let resolvedInputs ← liftE (resolveInputsV inputs full)
            -- ghost log of the ToolInvoker invocation, then the call itself
            modify (fun s => { s with toolCalls := s.toolCalls ++ [(serverType, method, resolvedInputs)] })
            let result ← liftE (env.toolCall serverType method resolvedInputs)
            setResult name (okDict result)
            let sra := (dictGet entries "store_result_as").getD .none
            let storeVar := if pyTruthy sra then sra else (dictGet entries "output").getD .none
            if pyTruthy storeVar then setStored storeVar result else pure ()
            setStoredName name result
            let sOk ← liftE (pyGet result "success" (.bool false))
            if pyTruthy sOk then pure ()
            else do
              let errMsg ← liftE (pyGet result "error" (.str "未知错误"))
              setResult name (failDictV errMsg)
            pure result)
          (fun e => match e with
            | .interrupt => throw PyExn.interrupt
            | .err m => do
                setResult name (failDict m)
                pure Value.none
            | .valueErr m => do
                setResult name (failDict m)
                pure Value.none)

/-- `range(times)`: the iteration count, `TypeError` for a non-integer. -/
def rangeOf (times : Value) : M Nat :=
  match times with
  | .int n => pure n.toNat
  | .bool b => pure (if b then 1 else 0)
  | _ => throwErr "TypeError: argument cannot be interpreted as an integer"

/-- `WorkflowExecutor._execute_loop_step` (no try/except of its own),
parameterized by the recursive entry into `_execute_steps` for the nested
step list: `range(times)` serial iterations sharing the execution context,
threading the last non-`None` result (`final_result`). -/
def executeLoopStepAt (recurse : Value → List (String × Value) → M Value)
    (entries : List (String × Value)) (ctx : List (String × Value)) : M Value := do
  let config := (dictGet entries "config").getD (.dict [])
  match config with
  | .dict centries => do
      let times := (dictGet centries "times").getD (.int 1)
      let loopSteps := (dictGet centries "steps").getD (.list [])
      let n ← rangeOf times
      (List.range n).foldlM (fun finalResult _ => do
          let r ← recurse loopSteps ctx
          pure (if r.isNone then finalResult else r)) Value.none
  | _ => throwErr "AttributeError: no attribute get"

/-- The `try` body of `WorkflowExecutor._execute_step`: the flat dispatch
on the type string (`step.get("type", "tool")`), with the unknown-type
failure recording as the final `else`. -/
def dispatchStep (recurse : Value → List (String × Value) → M Value)
    (env : Env) (entries : List (String × Value)) (ctx : List (String × Value)) : M Value :=
  let name := stepNameOf entries "未知步骤"
  let stepType := (dictGet entries "type").getD (.str "tool")
  if pyEq stepType (.str "print") then executePrintStep entries ctx
  else if pyEq stepType (.str "tool") then executeToolStep env entries ctx
  else if pyEq stepType (.str "agent") then executeAgentStep env entries ctx
  else if pyEq stepType (.str "input") then executeInputStep entries
  else if pyEq stepType (.str "set_variable") then executeSetVariableStep entries ctx
  else if pyEq stepType (.str "loop") then executeLoopStepAt recurse entries ctx
  else if pyEq stepType (.str "branch") then
    -- `_execute_branch_step`: placeholder print, returns None
    pure Value.none
  else if pyEq stepType (.str "router") then
    -- `_execute_router_step`: placeholder print, returns None
    pure Value.none
  else do
    setResult name (failDict ("未知的步骤类型: " ++ pyStr stepType))
    pure Value.none

/-- `WorkflowExecutor._execute_step`, parameterized by the recursive entry
into `_execute_steps`: name and type are read before the `try` (so a
non-dict step raises), then the dispatch runs inside
`try/except Exception` (which `KeyboardInterrupt` escapes). -/
def executeStepAt (recurse : Value → List (String × Value) → M Value)
    (env : Env) (step : Value) (ctx : List (String × Value)) : M Value :=
  match step with
  | .dict entries =>
      let name := stepNameOf entries "未知步骤"
      tryCatch (dispatchStep recurse env entries ctx)
        (fun e => match e with
          | .interrupt => throw PyExn.interrupt
          | .err m => do
              setResult name (failDict ("步骤执行失败: " ++ m))
              pure Value.none
          | .valueErr m => do
              setResult name (failDict ("步骤执行失败: " ++ m))
              pure Value.none)
  | _ => throwErr "AttributeError: no attribute get"

/-- `WorkflowExecutor._execute_steps` on the raw steps value: iterate the
steps in order, threading the last non-`None` step result.  Iterating a
non-list immediately fails at the first element's `step.get` (nonempty str
or dict) or at the `for` itself (non-iterable); both are folded into the
error raised here.  The fuel bounds only the loop-nesting depth (each
nested loop body runs at `fuel`): the nested step list is a strict subterm
of its loop step, so `fuel = sizeOf steps` always suffices and the
`RecursionError` branch is unreachable from `executeWorkflow`.  (CPython
raises the same `RecursionError` on deeply nested recursion; like every
other `Exception` it is caught at the enclosing step boundary.) -/
def execStepsF (env : Env) : Nat → Value → List (String × Value) → M Value
  | 0, _, _ => throwErr "RecursionError: maximum recursion depth exceeded"
  | fuel + 1, steps, ctx =>
      match steps with
      | .list items =>
          items.foldlM (fun result s => do
              let r ← executeStepAt (execStepsF env fuel) env s ctx
              pure (if r.isNone then result else r)) Value.none
      | .str s => if s = "" then pure Value.none
                  else throwErr "AttributeError: no attribute get"
      | .dict d => if d.isEmpty then pure Value.none
                   else throwErr "AttributeError: no attribute get"
      | _ => throwErr "TypeError: object is not iterable"

/-- One step executed with loop-nesting budget `fuel`. -/
def executeStep (env : Env) (fuel : Nat) (step : Value) (ctx : List (String × Value)) : M Value :=
  executeStepAt (execStepsF env fuel) env step ctx

/-- `WorkflowExecutor._start_tool_server` (`start_server` on the external
`ServerManager` is modelled as always returning; server lifecycle is
outside this core). -/
def startToolServer (toolConfig : Value) : M Unit := do
  let tname ← liftE (pyItem toolConfig "name")
  let stype ← liftE (pyItem toolConfig "server_type")
  match tname with
  | .str s => modify (fun st => { st with toolMapping := dictSet st.toolMapping s stype })
  | _ => throwErr "TypeError: non-string tool names are outside this model"

/-- The `tools_needed` filter of `execute_workflow`: bindings whose name is
not an agent name. -/
def collectToolsNeeded (env : Env) : List Value → Except PyExn (List Value)
  | [] => .ok []
  | t :: rest => do
      let nm ← pyItem t "name"
      let tail ← collectToolsNeeded env rest
      if valInStrList nm env.agents then .ok tail else .ok (t :: tail)

def startAllToolServers : List Value → M Unit
  | [] => pure ()
  | t :: rest => do
      startToolServer t
      startAllToolServers rest

/-- `WorkflowExecutor.execute_workflow`: re-seed `stored_data` from a copy
of `variables`, start servers for the tool bindings that are not agents,
run the step list, and return `self.results`.  Note that `self.results` is
not cleared here. -/
def executeWorkflow (env : Env) (workflowConfig : Value) : M (List (String × Value)) := do
  let vars ← liftE (pyGet workflowConfig "variables" (.dict []))
  let varsCopy ← (match vars with
    | .dict d => pure d
    -- `.copy()` on a non-dict `variables` value either raises
    -- AttributeError at once (None, numbers) or produces a non-dict
    -- stored-value map whose further behavior is outside this model
    | _ => throwErr "AttributeError: no attribute copy")
  modify (fun st => { st with storedData := varsCopy })
  let tools ← liftE (pyGet workflowConfig "tools" (.list []))
  let toolsList ← (match tools with
    | .list ts => pure ts
    | _ => throwErr "TypeError: object is not iterable")
  let toolsNeeded ← liftE (collectToolsNeeded env toolsList)
  if toolsNeeded.isEmpty then pure ()
  else do
    -- `_ensure_server_manager` (the imports succeed in this repository)
    modify (fun st => { st with serverInitialized := true })
    startAllToolServers toolsNeeded
  let steps ← liftE (pyGet workflowConfig "workflow" (.list []))
  let _ ← execStepsF env (vsize steps) steps []
  let st ← get
  pure st.results

/-- `WorkflowExecutor.__init__(server_manager)` for a fresh instance,
together with the interactive-input stream of the session. -/
def initState (serverManagerGiven : Bool) (inputs : List InputEvent) : ExecState :=
  { storedData := [], results := [], toolMapping := [],
    serverInitialized := serverManagerGiven, inputQueue := inputs, toolCalls := [] }

/-! ### Run-level view, well-formedness predicates, concrete instances -/

/-- Run an executor computation from a state: a Python method call with
`self` in that state, returning the outcome and the new state. -/
def runM {α : Type} (m : M α) (st : ExecState) : Except PyExn α × ExecState :=
  m.run.run st

/-- Whether an outcome is a normal return or a user cancellation — that
is, not an ordinary uncaught exception. -/
def isOkOrInterrupt {α : Type} : Except PyExn α → Bool
  | .ok _ => true
  | .error .interrupt => true
  | _ => false

/-- The step's `step` field, when present, is a string, so that the
results dict keeps string keys (the modelled key type). -/
def stepNameOkB (entries : List (String × Value)) : Bool :=
  match dictGet entries "step" with
  | some (.str _) => true
  | some _ => false
  | Option.none => true

/-- All steps of a list are dicts whose names are strings or absent. -/
def stepsOkB : List Value → Bool
  | [] => true
  | .dict entries :: rest => stepNameOkB entries && stepsOkB rest
  | _ => false

/-- A tool binding the startup loop can process: a dict with a string
`name` and some `server_type`. -/
def toolBindingOkB : Value → Bool
  | .dict d =>
      (match dictGet d "name" with
       | some (.str _) => true
       | _ => false) && (dictGet d "server_type").isSome
  | _ => false

def toolsOkB : List Value → Bool
  | [] => true
  | t :: rest => toolBindingOkB t && toolsOkB rest

/-- A structurally well-formed workflow document: a dict whose
`variables` is a dict (or absent), whose `tools` is a list of processable
bindings (or absent) and whose `workflow` is a list of dict steps with
string names (or absent). -/
def workflowOkB (wf : Value) : Bool :=
  match wf with
  | .dict d =>
      (match dictGet d "variables" with
       | Option.none => true
       | some (.dict _) => true
       | some _ => false) &&
      (match dictGet d "tools" with
       | Option.none => true
       | some (.list ts) => toolsOkB ts
       | some _ => false) &&
      (match dictGet d "workflow" with
       | Option.none => true
       | some (.list ss) => stepsOkB ss
       | some _ => false)
  | _ => false

/-- A small collaborator environment used by concrete instances. -/
def sampleEnv : Env where
  agents := ["data_fetcher"]
  hasAgent := fun _ => true
  toolCall := fun _ _ _ => .ok (.dict [("success", .bool true), ("result", .int 7)])

/-- Context binding `v` to a string that itself contains conditional-block
syntax. -/
def ctxCondInjection : Value := .dict [("v", .str "\x7b\x7b#c\x7d\x7dX\x7b\x7b/c\x7d\x7d")]

/-- Context binding `a` and `b` to strings. -/
def ctxAB : Value := .dict [("a", .str "1"), ("b", .str "2")]

/-- A workflow with a single branch-typed step named `b`. -/
def wfBranchOnly : Value :=
  .dict [("workflow", .list [.dict [("step", .str "b"), ("type", .str "branch")]])]

/-- A workflow with a single set_variable step named `s`. -/
def wfSetVarOnly : Value :=
  .dict [("workflow", .list [.dict [("step", .str "s"), ("type", .str "set_variable"),
    ("config", .dict [("variable", .str "x"), ("value", .str "1")])]])]

/-- A workflow whose `workflow` list is empty. -/
def wfEmpty : Value := .dict [("workflow", .list [])]

/-- A workflow whose first step is malformed (`config` is an int, so the
set_variable handler raises `AttributeError`) followed by a print step. -/
def wfMalformed : Value :=
  .dict [("workflow", .list [
    .dict [("step", .str "bad"), ("type", .str "set_variable"), ("config", .int 5)],
    .dict [("step", .str "after"), ("type", .str "print"),
      ("config", .dict [("message", .str "ok")])]])]

/-- An input step whose integer validation rejects the typed value. -/
def inputStepEntries : List (String × Value) :=
  [("step", .str "s1"), ("type", .str "input"), ("output", .str "name"),
   ("config", .dict [("type", .str "integer"), ("required", .bool true),
     ("min", .int 1), ("max", .int 10)])]

/-- A tool-typed step whose tool name is registered as an agent. -/
def toolStepEntries : List (String × Value) :=
  [("step", .str "t"), ("type", .str "tool"), ("tool", .str "data_fetcher")]

/-- A step carrying no `type` field at all. -/
def untypedStepEntries : List (String × Value) :=
  [("step", .str "n"), ("tool", .str "nosuch")]


/-- State-invariance of the ghost ToolInvoker log. -/
def tcInv {α : Type} (m : M α) : Prop :=
  ∀ st : ExecState, ((runM m st).2).toolCalls = st.toolCalls

/-- The computation touches the results dict at most by assigning the one
key `name` (the at-most-one-`StepResult` half of the bookkeeping). -/
def resAtMost (name : String) {α : Type} (m : M α) : Prop :=
  ∀ st : ExecState,
    ((runM m st).2).results = st.results
      ∨ ∃ v, ((runM m st).2).results = dictSet st.results name v

/-- Whenever the computation returns normally it has assigned the results
key `name` (the at-least-one-`StepResult` half). -/
def okWrites (name : String) {α : Type} (m : M α) : Prop :=
  ∀ st : ExecState, (∃ a, (runM m st).1 = .ok a) →
    ∃ v, ((runM m st).2).results = dictSet st.results name v

/-- Every outcome of the computation is a normal return or a user
cancellation, from every start state. -/
def noEscape {α : Type} (m : M α) : Prop :=
  ∀ st : ExecState, isOkOrInterrupt (runM m st).1 = true

/-! ## Theorems

First the generic run-level and association-list lemmas shared by the
claim theorems. -/

theorem runM_pure {α : Type} (a : α) (st : ExecState) :
    runM (pure a : M α) st = (.ok a, st) := rfl

theorem runM_throw {α : Type} (e : PyExn) (st : ExecState) :
    runM (throw e : M α) st = (.error e, st) := rfl

theorem runM_throwErr {α : Type} (m : String) (st : ExecState) :
    runM (throwErr m : M α) st = (.error (.err m), st) := rfl

theorem runM_get (st : ExecState) : runM (get : M ExecState) st = (.ok st, st) := rfl

theorem runM_set (s st : ExecState) : runM (set s : M Unit) st = (.ok (), s) := rfl

theorem runM_modify (f : ExecState → ExecState) (st : ExecState) :
    runM (modify f : M Unit) st = (.ok (), f st) := rfl

theorem runM_bind {α β : Type} (x : M α) (f : α → M β) (st : ExecState) :
    runM (x >>= f) st =
      match runM x st with
      | (.ok a, st') => runM (f a) st'
      | (.error e, st') => (.error e, st') := by
  have h : ∀ (p : Except PyExn α × ExecState), x st = p →
      runM (x >>= f) st =
        match runM x st with
        | (.ok a, st') => runM (f a) st'
        | (.error e, st') => (.error e, st') := by
    rintro ⟨r | r, st'⟩ h <;>
      simp [runM, Bind.bind, ExceptT.bind, ExceptT.bindCont, StateT.bind, ExceptT.run,
        ExceptT.mk, StateT.run, h, pure, StateT.pure, Id.run]
  exact h (x st) rfl

theorem runM_tryCatch {α : Type} (x : M α) (h : PyExn → M α) (st : ExecState) :
    runM (tryCatch x h) st =
      match runM x st with
      | (.ok a, st') => (.ok a, st')
      | (.error e, st') => runM (h e) st' := by
  have key : ∀ (p : Except PyExn α × ExecState), x st = p →
      runM (tryCatch x h) st =
        match runM x st with
        | (.ok a, st') => (.ok a, st')
        | (.error e, st') => runM (h e) st' := by
    rintro ⟨r | r, st'⟩ hx <;>
      simp [runM, tryCatch, tryCatchThe, MonadExceptOf.tryCatch, ExceptT.tryCatch,
        Bind.bind, StateT.bind, ExceptT.run, ExceptT.mk, StateT.run, hx, pure,
        StateT.pure, Id.run]
  exact key (x st) rfl

theorem runM_liftE {α : Type} (e : Except PyExn α) (st : ExecState) :
    runM (liftE e) st = (e, st) := by
  cases e <;> rfl

theorem runM_map {α β : Type} (f : α → β) (x : M α) (st : ExecState) :
    runM (f <$> x) st =
      match runM x st with
      | (.ok a, st') => (.ok (f a), st')
      | (.error e, st') => (.error e, st') := by
  have key : ∀ (p : Except PyExn α × ExecState), x st = p →
      runM (f <$> x) st =
        match runM x st with
        | (.ok a, st') => (.ok (f a), st')
        | (.error e, st') => (.error e, st') := by
    rintro ⟨r | r, st'⟩ h <;>
      simp [runM, Functor.map, ExceptT.map, StateT.map, Bind.bind, StateT.bind,
        ExceptT.run, ExceptT.mk, StateT.run, h, pure, StateT.pure, Id.run, Except.map]
  exact key (x st) rfl

theorem dictGet_dictSet_self (d : List (String × Value)) (k : String) (v : Value) :
    dictGet (dictSet d k v) k = some v := by
  induction d with
  | nil => simp [dictSet, dictGet]
  | cons kv rest ih =>
      obtain ⟨a, b⟩ := kv
      by_cases h : a = k <;> simp [dictSet, dictGet, h, ih]

theorem dictGet_dictSet_ne (d : List (String × Value)) (k k' : String) (v : Value)
    (h : k' ≠ k) : dictGet (dictSet d k v) k' = dictGet d k' := by
  have h' : ¬ k = k' := fun hh => h hh.symm
  induction d with
  | nil => simp [dictSet, dictGet, h']
  | cons kv rest ih =>
      obtain ⟨a, b⟩ := kv
      by_cases ha : a = k
      · subst ha
        simp [dictSet, dictGet, h']
      · simp [dictSet, dictGet, ha, ih]

theorem dictSet_dictSet (d : List (String × Value)) (k : String) (v w : Value) :
    dictSet (dictSet d k v) k w = dictSet d k w := by
  induction d with
  | nil => simp [dictSet]
  | cons kv rest ih =>
      obtain ⟨a, b⟩ := kv
      by_cases h : a = k <;> simp [dictSet, h, ih]

/-! ### Claim C1 — order of the two template passes -/

/-- Claim C1, counterexample: `render` does not equal the spec-ordered
composition (conditionals first, then variables).  With `v` bound to a
string containing block syntax, the source order substitutes `v` first and
then strips the injected block, yielding `""`, while the claimed order
leaves the injected block text intact. -/
theorem c1_render_order_counterexample :
    render "\x7b\x7bv\x7d\x7d" ctxCondInjection ≠
      renderSpecOrder "\x7b\x7bv\x7d\x7d" ctxCondInjection := by
  decide

/-- Claim C1 (corrected): for every template and context, `render` equals
the composition that performs the variable-substitution pass first and the
conditional-block pass second — the reverse of the order the claim
states. -/
theorem c1_render_order_amended (template : String) (ctx : Value) :
    render template ctx = renderConditionBlocks (renderVariables template ctx) ctx := by
  by_cases h : template = ""
  · subst h; rfl
  · simp [render, h]

/-! ### Claim C7 — ExecutionContext freshness at `execute_workflow` entry -/

/-- Claim C7, counterexample: running a second workflow on the same
executor instance returns a results map still holding the first
workflow's entry `s` — the per-step results map is not empty at entry. -/
theorem c7_fresh_context_counterexample :
    (runM (executeWorkflow sampleEnv wfEmpty)
        (runM (executeWorkflow sampleEnv wfSetVarOnly) (initState false [])).2).1
      = .ok [("s", okDict (.str "1"))] := rfl

/-- Claim C7 (corrected): at `execute_workflow` entry the stored-value map
is re-seeded with (a copy of) the workflow's `variables` map, but the
per-step results map is NOT cleared: the run returns whatever results the
instance already carried, extended by the new steps. -/
theorem c7_fresh_context_amended (env : Env) (st : ExecState) (ve : List (String × Value)) :
    runM (executeWorkflow env (.dict [("variables", .dict ve), ("workflow", .list [])])) st =
      (.ok st.results, { st with storedData := ve }) := by
  simp [executeWorkflow, runM_bind, runM_liftE, runM_modify, runM_get, runM_pure,
    runM_map, pyGet, dictGet, collectToolsNeeded, execStepsF, vsize, vsizeL, liftE,
    List.foldlM]

/-! ### Claim C10 — a step without a `type` field dispatches as a tool step -/

theorem executeAgentStep_congr (env : Env) (e1 e2 : List (String × Value))
    (ctx : List (String × Value))
    (h1 : dictGet e1 "step" = dictGet e2 "step")
    (h2 : dictGet e1 "agent" = dictGet e2 "agent")
    (h3 : dictGet e1 "inputs" = dictGet e2 "inputs") :
    executeAgentStep env e1 ctx = executeAgentStep env e2 ctx := by
  unfold executeAgentStep stepNameOf
  rw [h1, h2, h3]

theorem executeToolStep_congr (env : Env) (e1 e2 : List (String × Value))
    (ctx : List (String × Value))
    (h1 : dictGet e1 "step" = dictGet e2 "step")
    (h2 : dictGet e1 "tool" = dictGet e2 "tool")
    (h3 : dictGet e1 "inputs" = dictGet e2 "inputs")
    (h4 : dictGet e1 "method" = dictGet e2 "method")
    (h5 : dictGet e1 "store_result_as" = dictGet e2 "store_result_as")
    (h6 : dictGet e1 "output" = dictGet e2 "output") :
    executeToolStep env e1 ctx = executeToolStep env e2 ctx := by
  have hred : ∀ tn, executeAgentStep env (dictSet e1 "agent" tn) ctx
      = executeAgentStep env (dictSet e2 "agent" tn) ctx := by
    intro tn
    apply executeAgentStep_congr
    · rw [dictGet_dictSet_ne _ _ _ _ (by decide), dictGet_dictSet_ne _ _ _ _ (by decide), h1]
    · rw [dictGet_dictSet_self, dictGet_dictSet_self]
    · rw [dictGet_dictSet_ne _ _ _ _ (by decide), dictGet_dictSet_ne _ _ _ _ (by decide), h3]
  unfold executeToolStep stepNameOf
  rw [h1, h2, h3, h4, h5, h6]
  simp only [hred]

/-- Claim C10 (confirmed): a step whose map lacks a `type` field entirely
behaves exactly like the same step with `type` set to `"tool"` — the step
type defaults to `"tool"` and the step is dispatched as a tool step, not
recorded as an unknown-type failure. -/
theorem c10_default_type_tool (env : Env) (fuel : Nat) (entries : List (String × Value))
    (ctx : List (String × Value)) (h : dictGet entries "type" = Option.none) :
    executeStep env fuel (.dict entries) ctx =
      executeStep env fuel (.dict (dictSet entries "type" (.str "tool"))) ctx := by
  have hname : stepNameOf (dictSet entries "type" (.str "tool")) "未知步骤"
      = stepNameOf entries "未知步骤" := by
    unfold stepNameOf
    rw [dictGet_dictSet_ne _ _ _ _ (by decide)]
  have hdis : dispatchStep (execStepsF env fuel) env entries ctx
      = dispatchStep (execStepsF env fuel) env (dictSet entries "type" (.str "tool")) ctx := by
    have htool : executeToolStep env entries ctx
        = executeToolStep env (dictSet entries "type" (.str "tool")) ctx := by
      apply executeToolStep_congr <;> rw [dictGet_dictSet_ne _ _ _ _ (by decide)]
    unfold dispatchStep
    rw [h, dictGet_dictSet_self, hname]
    simp only [Option.getD, pyEq]
    simp only [show (("tool" == "print") = false) from rfl,
      show (("tool" == "tool") = true) from rfl, Bool.false_eq_true, if_false, if_true]
    exact htool
  unfold executeStep executeStepAt
  simp only [hname, hdis]

/-- Claim C10, witness instance. -/
theorem c10_default_type_tool_witness :
    dictGet untypedStepEntries "type" = Option.none ∧
      executeStep sampleEnv 3 (.dict untypedStepEntries) [] =
        executeStep sampleEnv 3 (.dict (dictSet untypedStepEntries "type" (.str "tool"))) [] :=
  ⟨rfl, c10_default_type_tool sampleEnv 3 untypedStepEntries [] rfl⟩

/-! ### Run-level equations for the executor's primitive state operations -/

theorem runM_setResult (name : Option String) (v : Value) (st : ExecState) :
    runM (setResult name v) st =
      match name with
      | some n => (.ok (), { st with results := dictSet st.results n v })
      | Option.none => (.error (.err "TypeError: unhashable step name"), st) := by
  cases name <;> rfl

theorem runM_setStoredName (name : Option String) (v : Value) (st : ExecState) :
    runM (setStoredName name v) st =
      match name with
      | some n => (.ok (), { st with storedData := dictSet st.storedData n v })
      | Option.none => (.error (.err "TypeError: unhashable variable name"), st) := by
  cases name <;> rfl

theorem runM_setStored (key : Value) (v : Value) (st : ExecState) :
    runM (setStored key v) st =
      match key with
      | .str s => (.ok (), { st with storedData := dictSet st.storedData s v })
      | _ => (.error (.err "TypeError: unhashable variable name"), st) := by
  cases key <;> rfl

theorem runM_fullContextNow (ctx : List (String × Value)) (st : ExecState) :
    runM (fullContextNow ctx) st =
      (.ok (Value.dict (buildFullContext st.storedData st.results ctx)), st) := rfl

theorem runM_popInput (st : ExecState) :
    runM popInput st =
      match st.inputQueue with
      | [] => (.error (.err "EOFError"), st)
      | .line s :: rest => (.ok s, { st with inputQueue := rest })
      | .interrupt :: rest => (.error .interrupt, { st with inputQueue := rest }) := by
  rcases h : st.inputQueue with _ | ⟨_ | _, rest⟩ <;>
    simp [popInput, h, runM, Bind.bind, ExceptT.bind, ExceptT.bindCont, StateT.bind,
      ExceptT.run, ExceptT.mk, StateT.run, Id.run, get, getThe, MonadStateOf.get,
      StateT.get, set, MonadStateOf.set, StateT.set, pure, StateT.pure, ExceptT.pure,
      throw, throwThe, MonadExceptOf.throw, throwErr, liftM, monadLift,
      MonadLift.monadLift, ExceptT.lift, Functor.map, StateT.map, Except.map]

theorem runM_rangeOf (times : Value) (st : ExecState) :
    runM (rangeOf times) st =
      match times with
      | .int n => (.ok n.toNat, st)
      | .bool b => (.ok (if b then 1 else 0), st)
      | _ => (.error (.err "TypeError: argument cannot be interpreted as an integer"), st) := by
  cases times <;> rfl

/-! ### Claim C5 — agent precedence in the tool handler -/

theorem tcInv_pure {α : Type} (a : α) : tcInv (pure a : M α) := fun _ => rfl

theorem tcInv_throw {α : Type} (e : PyExn) : tcInv (throw e : M α) := fun _ => rfl

theorem tcInv_throwErr {α : Type} (m : String) : tcInv (throwErr m : M α) := fun _ => rfl

theorem tcInv_liftE {α : Type} (e : Except PyExn α) : tcInv (liftE e) := by
  intro st; rw [runM_liftE]

theorem tcInv_bind {α β : Type} (x : M α) (f : α → M β)
    (hx : tcInv x) (hf : ∀ a, tcInv (f a)) : tcInv (x >>= f) := by
  intro st
  rw [runM_bind]
  rcases h : runM x st with ⟨r | r, st'⟩
  · have h2 := hx st
    rw [h] at h2
    simpa using h2
  · have h2 := hx st
    rw [h] at h2
    simpa using (hf r st').trans h2

theorem tcInv_tryCatch {α : Type} (x : M α) (h : PyExn → M α)
    (hx : tcInv x) (hh : ∀ e, tcInv (h e)) : tcInv (tryCatch x h) := by
  intro st
  rw [runM_tryCatch]
  rcases hr : runM x st with ⟨r | r, st'⟩
  · have h2 := hx st
    rw [hr] at h2
    simpa using (hh r st').trans h2
  · have h2 := hx st
    rw [hr] at h2
    simpa using h2

theorem tcInv_setResult (name : Option String) (v : Value) : tcInv (setResult name v) := by
  intro st
  rw [runM_setResult]
  cases name <;> rfl

theorem tcInv_fullContextNow (ctx : List (String × Value)) : tcInv (fullContextNow ctx) := by
  intro st; rw [runM_fullContextNow]

/-- The agent handler never touches the ToolInvoker log: it either fails
registration/lookup, or reaches the unimported `asyncio` and records the
resulting failure. -/
theorem executeAgentStep_toolCalls (env : Env) (entries : List (String × Value))
    (ctx : List (String × Value)) : tcInv (executeAgentStep env entries ctx) := by
  dsimp only [executeAgentStep]
  split
  · exact tcInv_bind _ _ (tcInv_setResult _ _) (fun _ => tcInv_pure _)
  · apply tcInv_tryCatch
    · split
      · exact tcInv_bind _ _ (tcInv_setResult _ _) (fun _ => tcInv_pure _)
      · exact tcInv_bind _ _ (tcInv_fullContextNow _) (fun _ =>
          tcInv_bind _ _ (tcInv_liftE _) (fun _ => tcInv_throwErr _))
    · intro e
      cases e
      · exact tcInv_bind _ _ (tcInv_setResult _ _) (fun _ => tcInv_pure _)
      · exact tcInv_bind _ _ (tcInv_setResult _ _) (fun _ => tcInv_pure _)
      · exact tcInv_throw _

/-- Claim C5 (confirmed): a tool-typed step whose `tool` name is returned
by the agent registry's `list_agents()` is redirected to the agent handler
with `agent := tool`, and the ToolInvoker (`call_tool_method`) is never
invoked for that step (the ghost invocation log is unchanged). -/
theorem c5_agent_precedence (env : Env) (entries ctx : List (String × Value))
    (st : ExecState) (t : String)
    (h1 : dictGet entries "tool" = some (.str t))
    (h2 : env.agents.contains t = true) :
    executeToolStep env entries ctx
        = executeAgentStep env (dictSet entries "agent" (.str t)) ctx
    ∧ ((runM (executeToolStep env entries ctx) st).2).toolCalls = st.toolCalls := by
  have hred : executeToolStep env entries ctx
      = executeAgentStep env (dictSet entries "agent" (.str t)) ctx := by
    dsimp only [executeToolStep]
    rw [h1]
    simp only [Option.getD, valInStrList, h2, if_true]
  refine ⟨hred, ?_⟩
  rw [hred]
  exact executeAgentStep_toolCalls env _ ctx st

/-- Claim C5, witness instance. -/
theorem c5_agent_precedence_witness :
    dictGet toolStepEntries "tool" = some (.str "data_fetcher") ∧
      sampleEnv.agents.contains "data_fetcher" = true ∧
      ((runM (executeToolStep sampleEnv toolStepEntries []) (initState false [])).2).toolCalls
        = [] :=
  ⟨rfl, rfl,
    (c5_agent_precedence sampleEnv toolStepEntries [] (initState false []) "data_fetcher"
      rfl rfl).2⟩

/-! ### Claim C4 — typed pass-through versus template rendering in
`_resolve_inputs_with_mustache` -/

theorem stripClose_complete : ∀ (m : List Char), '\n' ∉ m →
    stripClose (m ++ ['}', '}']) = some m := by
  intro m
  induction m with
  | nil => intro _; rfl
  | cons c rest ih =>
      intro hn
      have hc : c ≠ '\n' := fun h => hn (h ▸ List.mem_cons_self c rest)
      have hr : '\n' ∉ rest := fun h => hn (List.mem_cons_of_mem c h)
      have hlen : rest ++ ['}', '}'] ≠ [] := by simp
      show stripClose (c :: (rest ++ ['}', '}'])) = some (c :: rest)
      rw [show stripClose (c :: (rest ++ ['}', '}']))
          = if c = '\n' then Option.none
            else (stripClose (rest ++ ['}', '}'])).map (c :: ·) from ?_]
      · rw [if_neg hc, ih hr]; rfl
      · rcases h2 : rest ++ ['}', '}'] with _ | ⟨a, _ | ⟨b, l⟩⟩
        · exact absurd h2 hlen
        · -- a single element cannot be `rest ++ [two chars]`
          exact absurd (congrArg List.length h2) (by simp)
        · -- c :: a :: b :: l : matches the first arm only if it is exactly two
          -- characters, impossible with the leading c; reduce the match
          simp [stripClose]

theorem stripClose_sound : ∀ (t m : List Char), stripClose t = some m →
    t = m ++ ['}', '}'] ∧ '\n' ∉ m := by
  intro t
  induction t using stripClose.induct with
  | case1 =>
      intro m h
      simp [stripClose] at h
      subst h
      simp
  | case2 rest hg =>
      intro m h
      simp [stripClose] at h
  | case3 c rest hg hc ih =>
      intro m h
      simp [stripClose, hc] at h
      obtain ⟨a, ha, ham⟩ := h
      obtain ⟨ht, hn⟩ := ih a ha
      subst ham
      constructor
      · rw [ht]; rfl
      · intro hmem
        rcases List.mem_cons.mp hmem with h1 | h1
        · exact hc h1.symm
        · exact hn h1
  | case4 =>
      intro m h
      simp [stripClose] at h

theorem pureVarGroup_eq_some (u : String) (m : List Char)
    (hm : u.data = '{' :: '{' :: (m ++ ['}', '}'])) (hn : '\n' ∉ m) :
    pureVarGroup u = some (String.mk m) := by
  unfold pureVarGroup
  rw [hm]
  show Option.map String.mk (stripClose (m ++ ['}', '}'])) = some (String.mk m)
  rw [stripClose_complete m hn]
  rfl

theorem pureVarGroup_some (u g : String) (h : pureVarGroup u = some g) :
    u.data = '{' :: '{' :: (g.data ++ ['}', '}']) ∧ '\n' ∉ g.data := by
  unfold pureVarGroup at h
  split at h
  · next t ht =>
      rcases ho : stripClose t with _ | m
      · rw [ho] at h; exact absurd h (by simp)
      · rw [ho] at h
        simp only [Option.map, Option.some.injEq] at h
        obtain ⟨hd, hnl⟩ := stripClose_sound t m ho
        subst h
        exact ⟨by rw [ht, hd], hnl⟩
  · exact absurd h (by simp)

theorem resolveInputValue_str (s : String) (ctx : Value)
    (hb : (strContains "\x7b\x7b" s || strContains "\x7d\x7d" s) = true) :
    resolveInputValue ctx (.str s)
      = (match pureVarGroup (pyStrip s) with
         | some g =>
             let rv := getValue (pyStrip g) ctx
             if rv.isNone then .str s else rv
         | Option.none => .str (render s ctx)) := by
  dsimp only [resolveInputValue]
  rw [if_pos hb]

/-- Claim C4, counterexample: the string `\x7b\x7ba\x7d\x7d \x7b\x7bb\x7d\x7d`
contains two mustache tokens, so by the claim it would be rendered as a
template (yielding `1 2` in the context binding a to 1 and b to 2); in the
code the greedy anchored match `^\x7b\x7b(.*)\x7d\x7d$` treats the whole
string as one pure-variable reference whose lookup fails, so the original
string is stored unchanged. -/
theorem c4_resolve_inputs_counterexample :
    resolveInputValue ctxAB (.str "\x7b\x7ba\x7d\x7d \x7b\x7bb\x7d\x7d")
        = .str "\x7b\x7ba\x7d\x7d \x7b\x7bb\x7d\x7d"
      ∧ .str (render "\x7b\x7ba\x7d\x7d \x7b\x7bb\x7d\x7d" ctxAB)
        = Value.str "1 2"
      ∧ resolveInputValue ctxAB (.str "\x7b\x7ba\x7d\x7d \x7b\x7bb\x7d\x7d")
        ≠ .str (render "\x7b\x7ba\x7d\x7d \x7b\x7bb\x7d\x7d" ctxAB) := by
  refine ⟨rfl, rfl, ?_⟩
  intro h
  rw [show resolveInputValue ctxAB (.str "\x7b\x7ba\x7d\x7d \x7b\x7bb\x7d\x7d")
      = .str "\x7b\x7ba\x7d\x7d \x7b\x7bb\x7d\x7d" from rfl,
    show render "\x7b\x7ba\x7d\x7d \x7b\x7bb\x7d\x7d" ctxAB = "1 2" from rfl] at h
  injection h with h'
  exact absurd h' (by decide)

/-- Claim C4, amended: a string entry containing `\x7b\x7b` or `\x7d\x7d`
whose trimmed form starts with `\x7b\x7b` and ends with `\x7d\x7d` with a
newline-free middle is treated as one pure-variable reference whose path
is the entire (greedy) middle — even when that middle itself contains
several mustache tokens; the typed lookup value is stored when the lookup
succeeds and the original string otherwise.  Only a brace-containing
string with no such decomposition is rendered as a template. -/
theorem c4_resolve_inputs_amended (s : String) (ctx : Value)
    (hb : (strContains "\x7b\x7b" s || strContains "\x7d\x7d" s) = true) :
    (∀ m : List Char,
        (pyStrip s).data = '{' :: '{' :: (m ++ ['}', '}']) → '\n' ∉ m →
          resolveInputValue ctx (.str s)
            = (let rv := getValue (pyStrip (String.mk m)) ctx
               if rv.isNone then .str s else rv))
      ∧ ((¬ ∃ m : List Char,
            (pyStrip s).data = '{' :: '{' :: (m ++ ['}', '}']) ∧ '\n' ∉ m) →
          resolveInputValue ctx (.str s) = .str (render s ctx)) := by
  constructor
  · intro m hm hn
    rw [resolveInputValue_str s ctx hb, pureVarGroup_eq_some (pyStrip s) m hm hn]
  · intro hne
    have hp : pureVarGroup (pyStrip s) = Option.none := by
      rcases hg : pureVarGroup (pyStrip s) with _ | g
      · rfl
      · exact absurd ⟨g.data, (pureVarGroup_some _ _ hg).1, (pureVarGroup_some _ _ hg).2⟩ hne
    rw [resolveInputValue_str s ctx hb, hp]

/-! ### Claim C2 — result-entry bookkeeping of the step dispatcher

Compositional lemmas for `resAtMost` and `okWrites`, then one lemma per
step handler, then the dispatcher- and step-level statements. -/

theorem resAtMost_pure {α : Type} (name : String) (a : α) :
    resAtMost name (pure a : M α) := fun _ => .inl rfl

theorem resAtMost_throw {α : Type} (name : String) (e : PyExn) :
    resAtMost name (throw e : M α) := fun _ => .inl rfl

theorem resAtMost_throwErr {α : Type} (name : String) (m : String) :
    resAtMost name (throwErr m : M α) := fun _ => .inl rfl

theorem resAtMost_liftE {α : Type} (name : String) (e : Except PyExn α) :
    resAtMost name (liftE e) := by
  intro st
  rw [runM_liftE]
  exact .inl rfl

theorem resAtMost_get (name : String) : resAtMost name (get : M ExecState) :=
  fun _ => .inl rfl

theorem resAtMost_fullContextNow (name : String) (ctx : List (String × Value)) :
    resAtMost name (fullContextNow ctx) := by
  intro st
  rw [runM_fullContextNow]
  exact .inl rfl

theorem resAtMost_popInput (name : String) : resAtMost name popInput := by
  intro st
  rw [runM_popInput]
  rcases st.inputQueue with _ | ⟨_ | _, rest⟩ <;> exact .inl rfl

theorem resAtMost_setStored (name : String) (key v : Value) :
    resAtMost name (setStored key v) := by
  intro st
  rw [runM_setStored]
  cases key <;> exact .inl rfl

theorem resAtMost_setStoredName (name : String) (nm : Option String) (v : Value) :
    resAtMost name (setStoredName nm v) := by
  intro st
  rw [runM_setStoredName]
  cases nm <;> exact .inl rfl

theorem resAtMost_modifyRes (name : String) (f : ExecState → ExecState)
    (hf : ∀ s, (f s).results = s.results) : resAtMost name (modify f : M Unit) := by
  intro st
  rw [runM_modify]
  exact .inl (hf st)

theorem resAtMost_rangeOf (name : String) (t : Value) : resAtMost name (rangeOf t) := by
  intro st
  rw [runM_rangeOf]
  cases t <;> exact .inl rfl

theorem resAtMost_setResult_self (name : String) (v : Value) :
    resAtMost name (setResult (some name) v) := by
  intro st
  rw [runM_setResult]
  exact .inr ⟨v, rfl⟩

theorem resAtMost_bind {α β : Type} (name : String) (x : M α) (f : α → M β)
    (hx : resAtMost name x) (hf : ∀ a, resAtMost name (f a)) :
    resAtMost name (x >>= f) := by
  intro st
  rw [runM_bind]
  rcases h : runM x st with ⟨r | r, st'⟩
  · have h2 := hx st
    rw [h] at h2
    exact h2
  · have h2 := hx st
    rw [h] at h2
    have h3 := hf r st'
    dsimp only at h2 ⊢
    rcases h3 with h3 | ⟨v, h3⟩
    · rcases h2 with h2 | ⟨w, h2⟩
      · exact .inl (h3.trans h2)
      · exact .inr ⟨w, h3.trans h2⟩
    · rcases h2 with h2 | ⟨w, h2⟩
      · exact .inr ⟨v, by rw [h3, h2]⟩
      · exact .inr ⟨v, by rw [h3, h2, dictSet_dictSet]⟩

theorem resAtMost_tryCatch {α : Type} (name : String) (x : M α) (h : PyExn → M α)
    (hx : resAtMost name x) (hh : ∀ e, resAtMost name (h e)) :
    resAtMost name (tryCatch x h) := by
  intro st
  rw [runM_tryCatch]
  rcases hr : runM x st with ⟨r | r, st'⟩
  · have h2 := hx st
    rw [hr] at h2
    have h3 := hh r st'
    dsimp only at h2 ⊢
    rcases h3 with h3 | ⟨v, h3⟩
    · rcases h2 with h2 | ⟨w, h2⟩
      · exact .inl (h3.trans h2)
      · exact .inr ⟨w, h3.trans h2⟩
    · rcases h2 with h2 | ⟨w, h2⟩
      · exact .inr ⟨v, by rw [h3, h2]⟩
      · exact .inr ⟨v, by rw [h3, h2, dictSet_dictSet]⟩
  · have h2 := hx st
    rw [hr] at h2
    exact h2

theorem okWrites_throw {α : Type} (name : String) (e : PyExn) :
    okWrites name (throw e : M α) := by
  intro st hok
  rcases hok with ⟨a, ha⟩
  rw [runM_throw] at ha
  exact Except.noConfusion ha

theorem okWrites_throwErr {α : Type} (name : String) (m : String) :
    okWrites name (throwErr m : M α) := by
  intro st hok
  rcases hok with ⟨a, ha⟩
  rw [runM_throwErr] at ha
  exact Except.noConfusion ha

theorem okWrites_bind {α β : Type} (name : String) (x : M α) (f : α → M β)
    (hx : resAtMost name x) (hf : ∀ a, okWrites name (f a)) :
    okWrites name (x >>= f) := by
  intro st hok
  rw [runM_bind] at hok ⊢
  rcases h : runM x st with ⟨r | r, st'⟩ <;> rw [h] at hok <;> dsimp only at hok ⊢
  · rcases hok with ⟨a, ha⟩
    exact Except.noConfusion ha
  · have h2 := hx st
    rw [h] at h2
    dsimp only at h2
    obtain ⟨v, hv⟩ := hf r st' hok
    rcases h2 with h2 | ⟨w, hw⟩
    · exact ⟨v, by rw [hv, h2]⟩
    · exact ⟨v, by rw [hv, hw, dictSet_dictSet]⟩

theorem okWrites_seq_write {β : Type} (name : String) (v : Value) (f : Unit → M β)
    (hf : ∀ a, resAtMost name (f a)) :
    okWrites name (setResult (some name) v >>= f) := by
  intro st _
  rw [runM_bind, runM_setResult]
  dsimp only
  rcases hf () { st with results := dictSet st.results name v } with h | ⟨w, hw⟩
  · exact ⟨v, h⟩
  · exact ⟨w, hw.trans (dictSet_dictSet st.results name v w)⟩

theorem okWrites_tryCatch {α : Type} (name : String) (x : M α) (h : PyExn → M α)
    (hx : resAtMost name x) (hxo : okWrites name x) (hh : ∀ e, okWrites name (h e)) :
    okWrites name (tryCatch x h) := by
  intro st hok
  rw [runM_tryCatch] at hok ⊢
  rcases hr : runM x st with ⟨r | r, st'⟩ <;> rw [hr] at hok <;> dsimp only at hok ⊢
  · obtain ⟨v, hv⟩ := hh r st' hok
    have h2 := hx st
    rw [hr] at h2
    dsimp only at h2
    rcases h2 with h2 | ⟨w, hw⟩
    · exact ⟨v, by rw [hv, h2]⟩
    · exact ⟨v, by rw [hv, hw, dictSet_dictSet]⟩
  · obtain ⟨v, hv⟩ := hxo st ⟨r, by rw [hr]⟩
    rw [hr] at hv
    exact ⟨v, hv⟩

theorem stepNameOf_of_name (entries : List (String × Value)) (name : String)
    (dflt : String) (hname : dictGet entries "step" = some (.str name)) :
    stepNameOf entries dflt = some name := by
  unfold stepNameOf
  rw [hname]

theorem agentStep_resultEntry (env : Env) (entries ctx : List (String × Value)) (name : String)
    (hname : dictGet entries "step" = some (.str name)) :
    resAtMost name (executeAgentStep env entries ctx)
      ∧ okWrites name (executeAgentStep env entries ctx) := by
  have hsn := stepNameOf_of_name entries name "未知步骤" hname
  dsimp only [executeAgentStep]
  rw [hsn]
  constructor
  · split
    · exact resAtMost_bind _ _ _ (resAtMost_setResult_self _ _) (fun _ => resAtMost_pure _ _)
    · refine resAtMost_tryCatch _ _ _ ?_ ?_
      · split
        · exact resAtMost_bind _ _ _ (resAtMost_setResult_self _ _) (fun _ => resAtMost_pure _ _)
        · exact resAtMost_bind _ _ _ (resAtMost_fullContextNow _ _) (fun full =>
            resAtMost_bind _ _ _ (resAtMost_liftE _ _) (fun _ => resAtMost_throwErr _ _))
      · intro e
        cases e
        · exact resAtMost_bind _ _ _ (resAtMost_setResult_self _ _) (fun _ => resAtMost_pure _ _)
        · exact resAtMost_bind _ _ _ (resAtMost_setResult_self _ _) (fun _ => resAtMost_pure _ _)
        · exact resAtMost_throw _ _
  · split
    · exact okWrites_seq_write _ _ _ (fun _ => resAtMost_pure _ _)
    · refine okWrites_tryCatch _ _ _ ?_ ?_ ?_
      · split
        · exact resAtMost_bind _ _ _ (resAtMost_setResult_self _ _) (fun _ => resAtMost_pure _ _)
        · exact resAtMost_bind _ _ _ (resAtMost_fullContextNow _ _) (fun full =>
            resAtMost_bind _ _ _ (resAtMost_liftE _ _) (fun _ => resAtMost_throwErr _ _))
      · split
        · exact okWrites_seq_write _ _ _ (fun _ => resAtMost_pure _ _)
        · exact okWrites_bind _ _ _ (resAtMost_fullContextNow _ _) (fun full =>
            okWrites_bind _ _ _ (resAtMost_liftE _ _) (fun _ => okWrites_throwErr _ _))
      · intro e
        cases e
        · exact okWrites_seq_write _ _ _ (fun _ => resAtMost_pure _ _)
        · exact okWrites_seq_write _ _ _ (fun _ => resAtMost_pure _ _)
        · exact okWrites_throw _ _

theorem printStep_resultEntry (entries ctx : List (String × Value)) (name : String)
    (hname : dictGet entries "step" = some (.str name)) :
    resAtMost name (executePrintStep entries ctx)
      ∧ okWrites name (executePrintStep entries ctx) := by
  have hsn := stepNameOf_of_name entries name "print_step" hname
  dsimp only [executePrintStep]
  rw [hsn]
  constructor
  · refine resAtMost_tryCatch _ _ _ ?_ ?_
    · refine resAtMost_bind _ _ _ (resAtMost_liftE _ _) (fun message => ?_)
      refine resAtMost_bind _ _ _ (resAtMost_fullContextNow _ _) (fun full => ?_)
      refine resAtMost_bind _ _ _ ?_ (fun resolved1 => ?_)
      · cases message <;> first | exact resAtMost_pure _ _ | exact resAtMost_throwErr _ _
      · exact resAtMost_bind _ _ _ (resAtMost_setResult_self _ _) (fun _ => resAtMost_pure _ _)
    · intro e
      cases e
      · exact resAtMost_bind _ _ _ (resAtMost_setResult_self _ _) (fun _ => resAtMost_pure _ _)
      · exact resAtMost_bind _ _ _ (resAtMost_setResult_self _ _) (fun _ => resAtMost_pure _ _)
      · exact resAtMost_throw _ _
  · refine okWrites_tryCatch _ _ _ ?_ ?_ ?_
    · refine resAtMost_bind _ _ _ (resAtMost_liftE _ _) (fun message => ?_)
      refine resAtMost_bind _ _ _ (resAtMost_fullContextNow _ _) (fun full => ?_)
      refine resAtMost_bind _ _ _ ?_ (fun resolved1 => ?_)
      · cases message <;> first | exact resAtMost_pure _ _ | exact resAtMost_throwErr _ _
      · exact resAtMost_bind _ _ _ (resAtMost_setResult_self _ _) (fun _ => resAtMost_pure _ _)
    · refine okWrites_bind _ _ _ (resAtMost_liftE _ _) (fun message => ?_)
      refine okWrites_bind _ _ _ (resAtMost_fullContextNow _ _) (fun full => ?_)
      refine okWrites_bind _ _ _ ?_ (fun resolved1 => ?_)
      · cases message <;> first | exact resAtMost_pure _ _ | exact resAtMost_throwErr _ _
      · exact okWrites_seq_write _ _ _ (fun _ => resAtMost_pure _ _)
    · intro e
      cases e
      · exact okWrites_seq_write _ _ _ (fun _ => resAtMost_pure _ _)
      · exact okWrites_seq_write _ _ _ (fun _ => resAtMost_pure _ _)
      · exact okWrites_throw _ _

theorem inputStep_resultEntry (entries : List (String × Value)) (name : String)
    (hname : dictGet entries "step" = some (.str name)) :
    resAtMost name (executeInputStep entries)
      ∧ okWrites name (executeInputStep entries) := by
  have hsn := stepNameOf_of_name entries name "input_step" hname
  dsimp only [executeInputStep]
  rw [hsn]
  constructor
  · refine resAtMost_tryCatch _ _ _ ?_ ?_
    · refine resAtMost_bind _ _ _ (resAtMost_liftE _ _) (fun prompt => ?_)
      refine resAtMost_bind _ _ _ (resAtMost_liftE _ _) (fun defaultValue => ?_)
      split
      · exact resAtMost_bind _ _ _ (resAtMost_setResult_self _ _) (fun _ => resAtMost_pure _ _)
      · split
        all_goals try split
        all_goals refine resAtMost_bind _ _ _ ?_ (fun _ => ?_)
        all_goals
          first
            | exact resAtMost_pure _ _
            | exact resAtMost_throwErr _ _
            | (refine resAtMost_bind _ _ _ (resAtMost_popInput _) (fun line => ?_)
               refine resAtMost_bind _ _ _ (resAtMost_liftE _ _) (fun vres => ?_)
               split <;>
                 first
                   | exact resAtMost_bind _ _ _ (resAtMost_setStored _ _ _) (fun _ =>
                       resAtMost_bind _ _ _ (resAtMost_setResult_self _ _) (fun _ =>
                         resAtMost_pure _ _))
                   | exact resAtMost_bind _ _ _ (resAtMost_setResult_self _ _) (fun _ =>
                       resAtMost_pure _ _))
    · intro e
      cases e
      · exact resAtMost_bind _ _ _ (resAtMost_setResult_self _ _) (fun _ => resAtMost_pure _ _)
      · exact resAtMost_bind _ _ _ (resAtMost_setResult_self _ _) (fun _ => resAtMost_pure _ _)
      · exact resAtMost_bind _ _ _ (resAtMost_setResult_self _ _) (fun _ => resAtMost_throw _ _)
  · refine okWrites_tryCatch _ _ _ ?_ ?_ ?_
    · refine resAtMost_bind _ _ _ (resAtMost_liftE _ _) (fun prompt => ?_)
      refine resAtMost_bind _ _ _ (resAtMost_liftE _ _) (fun defaultValue => ?_)
      split
      · exact resAtMost_bind _ _ _ (resAtMost_setResult_self _ _) (fun _ => resAtMost_pure _ _)
      · split
        all_goals try split
        all_goals refine resAtMost_bind _ _ _ ?_ (fun _ => ?_)
        all_goals
          first
            | exact resAtMost_pure _ _
            | exact resAtMost_throwErr _ _
            | (refine resAtMost_bind _ _ _ (resAtMost_popInput _) (fun line => ?_)
               refine resAtMost_bind _ _ _ (resAtMost_liftE _ _) (fun vres => ?_)
               split <;>
                 first
                   | exact resAtMost_bind _ _ _ (resAtMost_setStored _ _ _) (fun _ =>
                       resAtMost_bind _ _ _ (resAtMost_setResult_self _ _) (fun _ =>
                         resAtMost_pure _ _))
                   | exact resAtMost_bind _ _ _ (resAtMost_setResult_self _ _) (fun _ =>
                       resAtMost_pure _ _))
    · refine okWrites_bind _ _ _ (resAtMost_liftE _ _) (fun prompt => ?_)
      refine okWrites_bind _ _ _ (resAtMost_liftE _ _) (fun defaultValue => ?_)
      split
      · exact okWrites_seq_write _ _ _ (fun _ => resAtMost_pure _ _)
      · split
        all_goals try split
        all_goals refine okWrites_bind _ _ _ ?_ (fun _ => ?_)
        all_goals
          first
            | exact resAtMost_pure _ _
            | exact resAtMost_throwErr _ _
            | (refine okWrites_bind _ _ _ (resAtMost_popInput _) (fun line => ?_)
               refine okWrites_bind _ _ _ (resAtMost_liftE _ _) (fun vres => ?_)
               split <;>
                 first
                   | exact okWrites_bind _ _ _ (resAtMost_setStored _ _ _) (fun _ =>
                       okWrites_seq_write _ _ _ (fun _ => resAtMost_pure _ _))
                   | exact okWrites_seq_write _ _ _ (fun _ => resAtMost_pure _ _))
    · intro e
      cases e
      · exact okWrites_seq_write _ _ _ (fun _ => resAtMost_pure _ _)
      · exact okWrites_seq_write _ _ _ (fun _ => resAtMost_pure _ _)
      · exact okWrites_seq_write _ _ _ (fun _ => resAtMost_throw _ _)

theorem setVariableStep_resultEntry (entries ctx : List (String × Value)) (name : String)
    (hname : dictGet entries "step" = some (.str name)) :
    resAtMost name (executeSetVariableStep entries ctx)
      ∧ okWrites name (executeSetVariableStep entries ctx) := by
  have hsn := stepNameOf_of_name entries name "set_variable_step" hname
  dsimp only [executeSetVariableStep]
  rw [hsn]
  constructor
  · refine resAtMost_bind _ _ _ (resAtMost_liftE _ _) (fun varName => ?_)
    refine resAtMost_bind _ _ _ (resAtMost_liftE _ _) (fun value => ?_)
    split
    · exact resAtMost_bind _ _ _ (resAtMost_setResult_self _ _) (fun _ => resAtMost_pure _ _)
    · exact resAtMost_bind _ _ _ (resAtMost_fullContextNow _ _) (fun full =>
        resAtMost_bind _ _ _ (resAtMost_setStored _ _ _) (fun _ =>
          resAtMost_bind _ _ _ (resAtMost_setResult_self _ _) (fun _ => resAtMost_pure _ _)))
  · refine okWrites_bind _ _ _ (resAtMost_liftE _ _) (fun varName => ?_)
    refine okWrites_bind _ _ _ (resAtMost_liftE _ _) (fun value => ?_)
    split
    · exact okWrites_seq_write _ _ _ (fun _ => resAtMost_pure _ _)
    · exact okWrites_bind _ _ _ (resAtMost_fullContextNow _ _) (fun full =>
        okWrites_bind _ _ _ (resAtMost_setStored _ _ _) (fun _ =>
          okWrites_seq_write _ _ _ (fun _ => resAtMost_pure _ _)))

theorem toolStep_resultEntry (env : Env) (entries ctx : List (String × Value)) (name : String)
    (hname : dictGet entries "step" = some (.str name)) :
    resAtMost name (executeToolStep env entries ctx)
      ∧ okWrites name (executeToolStep env entries ctx) := by
  have hsn := stepNameOf_of_name entries name "未知步骤" hname
  have hname' : dictGet (dictSet entries "agent" ((dictGet entries "tool").getD .none))
      "step" = some (.str name) := by
    rw [dictGet_dictSet_ne _ _ _ _ (by decide)]
    exact hname
  dsimp only [executeToolStep]
  rw [hsn]
  constructor
  · split
    · exact (agentStep_resultEntry env _ ctx name hname').1
    · refine resAtMost_bind _ _ _ (resAtMost_get _) (fun st0 => ?_)
      split
      · exact resAtMost_bind _ _ _ (resAtMost_setResult_self _ _) (fun _ => resAtMost_pure _ _)
      · refine resAtMost_bind _ _ _ (resAtMost_liftE _ _) (fun inMap => ?_)
        split
        · exact resAtMost_bind _ _ _ (resAtMost_setResult_self _ _) (fun _ => resAtMost_pure _ _)
        · refine resAtMost_tryCatch _ _ _ ?_ ?_
          · refine resAtMost_bind _ _ _ (resAtMost_fullContextNow _ _) (fun full => ?_)
            refine resAtMost_bind _ _ _ (resAtMost_liftE _ _) (fun resolvedInputs => ?_)
            refine resAtMost_bind _ _ _ (resAtMost_modifyRes _ _ (fun s => rfl)) (fun _ => ?_)
            refine resAtMost_bind _ _ _ (resAtMost_liftE _ _) (fun result => ?_)
            refine resAtMost_bind _ _ _ (resAtMost_setResult_self _ _) (fun _ => ?_)
            split
            all_goals try split
            all_goals refine resAtMost_bind _ _ _ ?_ (fun _ => ?_)
            all_goals
              first
                | exact resAtMost_setStored _ _ _
                | exact resAtMost_pure _ _
                | (refine resAtMost_bind _ _ _ (resAtMost_setStoredName _ _ _) (fun _ => ?_)
                   refine resAtMost_bind _ _ _ (resAtMost_liftE _ _) (fun sOk => ?_)
                   split
                   all_goals
                     first
                       | exact resAtMost_pure _ _
                       | exact resAtMost_bind _ _ _ (resAtMost_pure _ _) (fun _ =>
                           resAtMost_pure _ _)
                       | exact resAtMost_bind _ _ _ (resAtMost_liftE _ _) (fun errMsg =>
                           resAtMost_bind _ _ _ (resAtMost_setResult_self _ _) (fun _ =>
                             resAtMost_pure _ _)))
          · intro e
            cases e
            · exact resAtMost_bind _ _ _ (resAtMost_setResult_self _ _) (fun _ => resAtMost_pure _ _)
            · exact resAtMost_bind _ _ _ (resAtMost_setResult_self _ _) (fun _ => resAtMost_pure _ _)
            · exact resAtMost_throw _ _
  · split
    · exact (agentStep_resultEntry env _ ctx name hname').2
    · refine okWrites_bind _ _ _ (resAtMost_get _) (fun st0 => ?_)
      split
      · exact okWrites_seq_write _ _ _ (fun _ => resAtMost_pure _ _)
      · refine okWrites_bind _ _ _ (resAtMost_liftE _ _) (fun inMap => ?_)
        split
        · exact okWrites_seq_write _ _ _ (fun _ => resAtMost_pure _ _)
        · refine okWrites_tryCatch _ _ _ ?_ ?_ ?_
          · refine resAtMost_bind _ _ _ (resAtMost_fullContextNow _ _) (fun full => ?_)
            refine resAtMost_bind _ _ _ (resAtMost_liftE _ _) (fun resolvedInputs => ?_)
            refine resAtMost_bind _ _ _ (resAtMost_modifyRes _ _ (fun s => rfl)) (fun _ => ?_)
            refine resAtMost_bind _ _ _ (resAtMost_liftE _ _) (fun result => ?_)
            refine resAtMost_bind _ _ _ (resAtMost_setResult_self _ _) (fun _ => ?_)
            split
            all_goals try split
            all_goals refine resAtMost_bind _ _ _ ?_ (fun _ => ?_)
            all_goals
              first
                | exact resAtMost_setStored _ _ _
                | exact resAtMost_pure _ _
                | (refine resAtMost_bind _ _ _ (resAtMost_setStoredName _ _ _) (fun _ => ?_)
                   refine resAtMost_bind _ _ _ (resAtMost_liftE _ _) (fun sOk => ?_)
                   split
                   all_goals
                     first
                       | exact resAtMost_pure _ _
                       | exact resAtMost_bind _ _ _ (resAtMost_pure _ _) (fun _ =>
                           resAtMost_pure _ _)
                       | exact resAtMost_bind _ _ _ (resAtMost_liftE _ _) (fun errMsg =>
                           resAtMost_bind _ _ _ (resAtMost_setResult_self _ _) (fun _ =>
                             resAtMost_pure _ _)))
          · refine okWrites_bind _ _ _ (resAtMost_fullContextNow _ _) (fun full => ?_)
            refine okWrites_bind _ _ _ (resAtMost_liftE _ _) (fun resolvedInputs => ?_)
            refine okWrites_bind _ _ _ (resAtMost_modifyRes _ _ (fun s => rfl)) (fun _ => ?_)
            refine okWrites_bind _ _ _ (resAtMost_liftE _ _) (fun result => ?_)
            refine okWrites_seq_write _ _ _ (fun _ => ?_)
            split
            all_goals try split
            all_goals refine resAtMost_bind _ _ _ ?_ (fun _ => ?_)
            all_goals
              first
                | exact resAtMost_setStored _ _ _
                | exact resAtMost_pure _ _
                | (refine resAtMost_bind _ _ _ (resAtMost_setStoredName _ _ _) (fun _ => ?_)
                   refine resAtMost_bind _ _ _ (resAtMost_liftE _ _) (fun sOk => ?_)
                   split
                   all_goals
                     first
                       | exact resAtMost_pure _ _
                       | exact resAtMost_bind _ _ _ (resAtMost_pure _ _) (fun _ =>
                           resAtMost_pure _ _)
                       | exact resAtMost_bind _ _ _ (resAtMost_liftE _ _) (fun errMsg =>
                           resAtMost_bind _ _ _ (resAtMost_setResult_self _ _) (fun _ =>
                             resAtMost_pure _ _)))
          · intro e
            cases e
            · exact okWrites_seq_write _ _ _ (fun _ => resAtMost_pure _ _)
            · exact okWrites_seq_write _ _ _ (fun _ => resAtMost_pure _ _)
            · exact okWrites_throw _ _

theorem dispatchStep_resultEntry (recurse : Value → List (String × Value) → M Value)
    (env : Env) (entries ctx : List (String × Value)) (name : String)
    (hname : dictGet entries "step" = some (.str name))
    (hl : pyEq ((dictGet entries "type").getD (.str "tool")) (.str "loop") = false)
    (hb : pyEq ((dictGet entries "type").getD (.str "tool")) (.str "branch") = false)
    (hr : pyEq ((dictGet entries "type").getD (.str "tool")) (.str "router") = false) :
    resAtMost name (dispatchStep recurse env entries ctx)
      ∧ okWrites name (dispatchStep recurse env entries ctx) := by
  have hsn := stepNameOf_of_name entries name "未知步骤" hname
  dsimp only [dispatchStep]
  rw [hsn]
  constructor
  · split
    · exact (printStep_resultEntry entries ctx name hname).1
    · split
      · exact (toolStep_resultEntry env entries ctx name hname).1
      · split
        · exact (agentStep_resultEntry env entries ctx name hname).1
        · split
          · exact (inputStep_resultEntry entries name hname).1
          · split
            · exact (setVariableStep_resultEntry entries ctx name hname).1
            · split
              · next h => rw [hl] at h; exact Bool.noConfusion h
              · split
                · next h => rw [hb] at h; exact Bool.noConfusion h
                · split
                  · next h => rw [hr] at h; exact Bool.noConfusion h
                  · exact resAtMost_bind _ _ _ (resAtMost_setResult_self _ _)
                      (fun _ => resAtMost_pure _ _)
  · split
    · exact (printStep_resultEntry entries ctx name hname).2
    · split
      · exact (toolStep_resultEntry env entries ctx name hname).2
      · split
        · exact (agentStep_resultEntry env entries ctx name hname).2
        · split
          · exact (inputStep_resultEntry entries name hname).2
          · split
            · exact (setVariableStep_resultEntry entries ctx name hname).2
            · split
              · next h => rw [hl] at h; exact Bool.noConfusion h
              · split
                · next h => rw [hb] at h; exact Bool.noConfusion h
                · split
                  · next h => rw [hr] at h; exact Bool.noConfusion h
                  · exact okWrites_seq_write _ _ _ (fun _ => resAtMost_pure _ _)

theorem executeStep_resultEntry (env : Env) (fuel : Nat)
    (entries ctx : List (String × Value)) (name : String)
    (hname : dictGet entries "step" = some (.str name))
    (hl : pyEq ((dictGet entries "type").getD (.str "tool")) (.str "loop") = false)
    (hb : pyEq ((dictGet entries "type").getD (.str "tool")) (.str "branch") = false)
    (hr : pyEq ((dictGet entries "type").getD (.str "tool")) (.str "router") = false) :
    okWrites name (executeStep env fuel (.dict entries) ctx) := by
  have hsn := stepNameOf_of_name entries name "未知步骤" hname
  unfold executeStep executeStepAt
  dsimp only
  rw [hsn]
  refine okWrites_tryCatch _ _ _ ?_ ?_ ?_
  · exact (dispatchStep_resultEntry _ env entries ctx name hname hl hb hr).1
  · exact (dispatchStep_resultEntry _ env entries ctx name hname hl hb hr).2
  · intro e
    cases e
    · exact okWrites_seq_write _ _ _ (fun _ => resAtMost_pure _ _)
    · exact okWrites_seq_write _ _ _ (fun _ => resAtMost_pure _ _)
    · exact okWrites_throw _ _

/-- Claim C2, counterexample: a workflow with a single branch-typed step
named `b` completes, yet the returned results map is empty — the executed
branch step produced no `StepResult` entry under its name. -/
theorem c2_step_result_counterexample :
    (runM (executeWorkflow sampleEnv wfBranchOnly) (initState false [])).1
        = .ok []
      ∧ dictGet ((runM (executeWorkflow sampleEnv wfBranchOnly) (initState false [])).2).results "b"
        = Option.none :=
  ⟨rfl, rfl⟩

/-- Claim C2, amended: a branch- or router-typed step is a no-op (state
untouched, no `StepResult`); a step of type print, tool, agent, input or
set_variable — or of an unknown type — that completes without an escaping
exception leaves the results map extended or overwritten at exactly its
own step name; a loop step whose handler completes normally contributes
exactly the state changes of its nested steps (the step wrapper adds no
entry of its own). -/
theorem c2_step_result_amended :
    (∀ (env : Env) (fuel : Nat) (entries ctx : List (String × Value)) (st : ExecState),
        ((dictGet entries "type").getD (.str "tool") = .str "branch"
          ∨ (dictGet entries "type").getD (.str "tool") = .str "router") →
        runM (executeStep env fuel (.dict entries) ctx) st = (.ok Value.none, st))
    ∧ (∀ (env : Env) (fuel : Nat) (entries ctx : List (String × Value)) (st : ExecState)
        (name : String) (r : Value) (st' : ExecState),
        dictGet entries "step" = some (.str name) →
        pyEq ((dictGet entries "type").getD (.str "tool")) (.str "loop") = false →
        pyEq ((dictGet entries "type").getD (.str "tool")) (.str "branch") = false →
        pyEq ((dictGet entries "type").getD (.str "tool")) (.str "router") = false →
        runM (executeStep env fuel (.dict entries) ctx) st = (.ok r, st') →
        ∃ v, st'.results = dictSet st.results name v)
    ∧ (∀ (env : Env) (fuel : Nat) (entries ctx : List (String × Value)) (st : ExecState)
        (r : Value) (st' : ExecState),
        (dictGet entries "type").getD (.str "tool") = .str "loop" →
        runM (executeLoopStepAt (execStepsF env fuel) entries ctx) st = (.ok r, st') →
        runM (executeStep env fuel (.dict entries) ctx) st = (.ok r, st')) := by
  refine ⟨?_, ?_, ?_⟩
  · intro env fuel entries ctx st hty
    unfold executeStep executeStepAt
    dsimp only
    have hd : dispatchStep (execStepsF env fuel) env entries ctx = pure Value.none := by
      dsimp only [dispatchStep]
      rcases hty with hty | hty <;> rw [hty] <;> rfl
    rw [hd, runM_tryCatch, runM_pure]
  · intro env fuel entries ctx st name r st' hname hl hb hr hrun
    obtain ⟨v, hv⟩ := executeStep_resultEntry env fuel entries ctx name hname hl hb hr st
      ⟨r, by rw [hrun]⟩
    rw [hrun] at hv
    exact ⟨v, hv⟩
  · intro env fuel entries ctx st r st' hty hrun
    unfold executeStep executeStepAt
    dsimp only
    have hd : dispatchStep (execStepsF env fuel) env entries ctx
        = executeLoopStepAt (execStepsF env fuel) entries ctx := by
      dsimp only [dispatchStep]
      rw [hty]
      rfl
    rw [hd, runM_tryCatch, hrun]

/-- Claim C2, witness instances: a branch step is a recorded-result no-op;
an untyped (hence tool-dispatched) step extends the results map at exactly
its name; a zero-iteration loop step is transparent. -/
theorem c2_step_result_amended_witness :
    ((dictGet [("step", Value.str "b"), ("type", Value.str "branch")] "type").getD (.str "tool")
        = .str "branch"
      ∧ runM (executeStep sampleEnv 1
          (.dict [("step", Value.str "b"), ("type", Value.str "branch")]) [])
          (initState false [])
        = (.ok Value.none, initState false []))
    ∧ (dictGet untypedStepEntries "step" = some (.str "n")
      ∧ ∃ v, ((runM (executeStep sampleEnv 1 (.dict untypedStepEntries) [])
          (initState false [])).2).results = dictSet (initState false []).results "n" v)
    ∧ ((dictGet [("step", Value.str "l"), ("type", Value.str "loop"),
          ("config", Value.dict [("times", Value.int 0)])] "type").getD (.str "tool")
        = .str "loop"
      ∧ runM (executeStep sampleEnv 1
          (.dict [("step", Value.str "l"), ("type", Value.str "loop"),
            ("config", Value.dict [("times", Value.int 0)])]) [])
          (initState false [])
        = (.ok Value.none, initState false [])) :=
  ⟨⟨rfl, c2_step_result_amended.1 sampleEnv 1
      [("step", Value.str "b"), ("type", Value.str "branch")] [] (initState false [])
      (Or.inl rfl)⟩,
   ⟨rfl, c2_step_result_amended.2.1 sampleEnv 1 untypedStepEntries [] (initState false [])
      "n" Value.none
      ((runM (executeStep sampleEnv 1 (.dict untypedStepEntries) []) (initState false [])).2)
      rfl rfl rfl rfl rfl⟩,
   ⟨rfl, c2_step_result_amended.2.2 sampleEnv 1
      [("step", Value.str "l"), ("type", Value.str "loop"),
        ("config", Value.dict [("times", Value.int 0)])] [] (initState false [])
      Value.none (initState false []) rfl rfl⟩⟩

/-! ### Claim C3 — no uncaught exceptions for malformed steps -/

theorem noEscape_pure {α : Type} (a : α) : noEscape (pure a : M α) := fun _ => rfl

theorem noEscape_modify (f : ExecState → ExecState) : noEscape (modify f : M Unit) :=
  fun _ => rfl

theorem noEscape_get : noEscape (get : M ExecState) := fun _ => rfl

theorem noEscape_bind {α β : Type} (x : M α) (f : α → M β)
    (hx : noEscape x) (hf : ∀ a, noEscape (f a)) : noEscape (x >>= f) := by
  intro st
  rw [runM_bind]
  rcases h : runM x st with ⟨e | r, st'⟩ <;> dsimp only
  · have h2 := hx st
    rw [h] at h2
    dsimp only at h2
    cases e
    · exact Bool.noConfusion h2
    · exact Bool.noConfusion h2
    · rfl
  · exact hf r st'

theorem noEscape_seq_pure {α β : Type} (a : α) (f : α → M β)
    (hf : noEscape (f a)) : noEscape (pure a >>= f) := by
  intro st
  rw [runM_bind, runM_pure]
  exact hf st

theorem noEscape_seq_modify {β : Type} (g : ExecState → ExecState) (f : Unit → M β)
    (hf : noEscape (f ())) : noEscape (modify g >>= f) := by
  intro st
  rw [runM_bind, runM_modify]
  exact hf (g st)

theorem noEscape_bind_liftE {α β : Type} (v : α) (f : α → M β)
    (hf : noEscape (f v)) : noEscape (liftE (Except.ok v) >>= f) := by
  intro st
  rw [runM_bind, runM_liftE]
  exact hf st

theorem noEscape_map {α β : Type} (f : α → β) (x : M α)
    (hx : noEscape x) : noEscape (f <$> x) := by
  intro st
  rw [runM_map]
  rcases h : runM x st with ⟨e | r, st'⟩ <;> dsimp only
  · have h2 := hx st
    rw [h] at h2
    dsimp only at h2
    cases e
    · exact Bool.noConfusion h2
    · exact Bool.noConfusion h2
    · rfl
  · rfl

theorem executeStep_noEscape (env : Env) (fuel : Nat)
    (entries ctx : List (String × Value)) (h : stepNameOkB entries = true) :
    noEscape (executeStep env fuel (.dict entries) ctx) := by
  obtain ⟨n, hn⟩ : ∃ n, stepNameOf entries "未知步骤" = some n := by
    unfold stepNameOkB at h
    unfold stepNameOf
    rcases hd : dictGet entries "step" with _ | v
    · exact ⟨"未知步骤", rfl⟩
    · rw [hd] at h
      cases v <;> first | exact ⟨_, rfl⟩ | exact Bool.noConfusion h
  unfold executeStep executeStepAt
  dsimp only
  rw [hn]
  intro st
  rw [runM_tryCatch]
  rcases hr : runM (dispatchStep (execStepsF env fuel) env entries ctx) st with ⟨e | r, st'⟩
  · cases e <;> rfl
  · rfl

theorem foldSteps_noEscape (env : Env) (fuel : Nat) (ctx : List (String × Value)) :
    ∀ (items : List Value) (acc : Value), stepsOkB items = true →
    noEscape (items.foldlM (fun result s => do
        let r ← executeStepAt (execStepsF env fuel) env s ctx
        pure (if r.isNone then result else r)) acc : M Value) := by
  intro items
  induction items with
  | nil => intro acc _ st; rfl
  | cons s rest ih =>
      intro acc h
      rcases s with _ | b | n | q | s' | vs | entries
      case dict =>
        have h' : (stepNameOkB entries && stepsOkB rest) = true := h
        rw [Bool.and_eq_true] at h'
        obtain ⟨hname, hrest⟩ := h'
        rw [List.foldlM_cons]
        refine noEscape_bind _ _ ?_ (fun acc' => ih acc' hrest)
        refine noEscape_bind _ _ ?_ (fun r => noEscape_pure _)
        exact executeStep_noEscape env fuel entries ctx hname
      all_goals exact Bool.noConfusion h

theorem execStepsF_noEscape (env : Env) (fuel : Nat) (items : List Value)
    (ctx : List (String × Value)) (h : stepsOkB items = true) (hf : fuel ≠ 0) :
    noEscape (execStepsF env fuel (.list items) ctx) := by
  rcases fuel with _ | fuel'
  · exact absurd rfl hf
  · exact foldSteps_noEscape env fuel' ctx items Value.none h

theorem collectToolsNeeded_ok (env : Env) : ∀ (ts : List Value), toolsOkB ts = true →
    ∃ res, collectToolsNeeded env ts = .ok res ∧ toolsOkB res = true := by
  intro ts
  induction ts with
  | nil => intro _; exact ⟨[], rfl, rfl⟩
  | cons t rest ih =>
      intro h
      have h' : (toolBindingOkB t && toolsOkB rest) = true := h
      rw [Bool.and_eq_true] at h'
      obtain ⟨ht, hrest⟩ := h'
      obtain ⟨res, hres, hresok⟩ := ih hrest
      rcases t with _ | b | n | q | s' | vs | dt
      case dict =>
        have ht' : ((match dictGet dt "name" with
            | some (.str _) => true
            | _ => false) && (dictGet dt "server_type").isSome) = true := ht
        rw [Bool.and_eq_true] at ht'
        obtain ⟨htn, hts⟩ := ht'
        rcases hn : dictGet dt "name" with _ | nv
        · rw [hn] at htn
          exact Bool.noConfusion htn
        · rcases nv with _ | _ | _ | _ | s | _ | _
          case str =>
            have e1 : pyItem (Value.dict dt) "name" = Except.ok (Value.str s) := by
              unfold pyItem
              dsimp only
              rw [hn]
            have hstep : collectToolsNeeded env (Value.dict dt :: rest)
                = if valInStrList (Value.str s) env.agents then Except.ok res
                  else Except.ok (Value.dict dt :: res) := by
              unfold collectToolsNeeded
              rw [e1, hres]
              rfl
            rcases hvv : valInStrList (Value.str s) env.agents with _ | _
            · refine ⟨Value.dict dt :: res, ?_, ?_⟩
              · rw [hstep, hvv]
                rfl
              · show (toolBindingOkB (Value.dict dt) && toolsOkB res) = true
                rw [Bool.and_eq_true]
                exact ⟨ht, hresok⟩
            · refine ⟨res, ?_, hresok⟩
              rw [hstep, hvv]
              rfl
          all_goals (rw [hn] at htn; exact Bool.noConfusion htn)
      all_goals exact Bool.noConfusion ht

theorem startAllToolServers_noEscape : ∀ (ts : List Value), toolsOkB ts = true →
    noEscape (startAllToolServers ts) := by
  intro ts
  induction ts with
  | nil => intro _ st; rfl
  | cons t rest ih =>
      intro h
      have h' : (toolBindingOkB t && toolsOkB rest) = true := h
      rw [Bool.and_eq_true] at h'
      obtain ⟨ht, hrest⟩ := h'
      show noEscape (startToolServer t >>= fun _ => startAllToolServers rest)
      refine noEscape_bind _ _ ?_ (fun _ => ih hrest)
      rcases t with _ | b | n | q | s' | vs | dt
      case dict =>
        have ht' : ((match dictGet dt "name" with
            | some (.str _) => true
            | _ => false) && (dictGet dt "server_type").isSome) = true := ht
        rw [Bool.and_eq_true] at ht'
        obtain ⟨htn, hts⟩ := ht'
        rcases hn : dictGet dt "name" with _ | nv
        · rw [hn] at htn
          exact Bool.noConfusion htn
        · rcases nv with _ | _ | _ | _ | s | _ | _
          case str =>
            rcases hs : dictGet dt "server_type" with _ | sv
            · rw [hs] at hts
              exact Bool.noConfusion hts
            · have e1 : pyItem (Value.dict dt) "name" = Except.ok (Value.str s) := by
                unfold pyItem
                dsimp only
                rw [hn]
              have e2 : pyItem (Value.dict dt) "server_type" = Except.ok sv := by
                unfold pyItem
                dsimp only
                rw [hs]
              unfold startToolServer
              rw [e1, e2]
              refine noEscape_bind_liftE _ _ ?_
              refine noEscape_bind_liftE _ _ ?_
              exact noEscape_modify _
          all_goals (rw [hn] at htn; exact Bool.noConfusion htn)
      all_goals exact Bool.noConfusion ht

theorem executeWorkflow_noEscape (env : Env) (wf : Value)
    (h : workflowOkB wf = true) : noEscape (executeWorkflow env wf) := by
  rcases wf with _ | b | n | q | s | vs | d
  case dict =>
    have h' : ((match dictGet d "variables" with
        | Option.none => true
        | some (.dict _) => true
        | some _ => false) &&
      (match dictGet d "tools" with
        | Option.none => true
        | some (.list ts) => toolsOkB ts
        | some _ => false) &&
      (match dictGet d "workflow" with
        | Option.none => true
        | some (.list ss) => stepsOkB ss
        | some _ => false)) = true := h
    rw [Bool.and_eq_true, Bool.and_eq_true] at h'
    obtain ⟨⟨hA, hB⟩, hC⟩ := h'
    unfold executeWorkflow
    -- the variables field
    have hvars : ∃ dv, pyGet (Value.dict d) "variables" (Value.dict []) = Except.ok (Value.dict dv) := by
      unfold pyGet
      dsimp only
      rcases hv : dictGet d "variables" with _ | vv
      · exact ⟨[], rfl⟩
      · rw [hv] at hA
        rcases vv with _ | _ | _ | _ | _ | _ | dv
        case dict => exact ⟨dv, rfl⟩
        all_goals exact Bool.noConfusion hA
    obtain ⟨dv, hdv⟩ := hvars
    rw [hdv]
    refine noEscape_bind_liftE _ _ ?_
    refine noEscape_seq_pure _ _ ?_
    refine noEscape_seq_modify _ _ ?_
    -- the tools field
    have htools : ∃ ts, pyGet (Value.dict d) "tools" (Value.list []) = Except.ok (Value.list ts)
        ∧ toolsOkB ts = true := by
      unfold pyGet
      dsimp only
      rcases hv : dictGet d "tools" with _ | vv
      · exact ⟨[], rfl, rfl⟩
      · rw [hv] at hB
        rcases vv with _ | _ | _ | _ | _ | ts | _
        case list => exact ⟨ts, rfl, hB⟩
        all_goals exact Bool.noConfusion hB
    obtain ⟨ts, hts, htsok⟩ := htools
    rw [hts]
    refine noEscape_bind_liftE _ _ ?_
    refine noEscape_seq_pure _ _ ?_
    obtain ⟨needed, hcn, hneedok⟩ := collectToolsNeeded_ok env ts htsok
    rw [hcn]
    refine noEscape_bind_liftE _ _ ?_
    -- the workflow field
    have hsteps : ∃ ss, pyGet (Value.dict d) "workflow" (Value.list []) = Except.ok (Value.list ss)
        ∧ stepsOkB ss = true := by
      unfold pyGet
      dsimp only
      rcases hv : dictGet d "workflow" with _ | vv
      · exact ⟨[], rfl, rfl⟩
      · rw [hv] at hC
        rcases vv with _ | _ | _ | _ | _ | ss | _
        case list => exact ⟨ss, rfl, hC⟩
        all_goals exact Bool.noConfusion hC
    obtain ⟨ss, hss, hssok⟩ := hsteps
    rw [hss]
    split
    · refine noEscape_seq_pure _ _ ?_
      refine noEscape_bind_liftE _ _ ?_
      refine noEscape_bind _ _ ?_ (fun _ => noEscape_bind _ _ noEscape_get
        (fun st => noEscape_pure _))
      exact execStepsF_noEscape env _ ss [] hssok (by
        show 1 + vsizeL ss ≠ 0
        omega)
    · refine noEscape_seq_modify _ _ ?_
      refine noEscape_bind _ _ (startAllToolServers_noEscape needed hneedok) (fun _ => ?_)
      refine noEscape_bind_liftE _ _ ?_
      refine noEscape_bind _ _ ?_ (fun _ => noEscape_bind _ _ noEscape_get
        (fun st => noEscape_pure _))
      exact execStepsF_noEscape env _ ss [] hssok (by
        show 1 + vsizeL ss ≠ 0
        omega)
  all_goals exact Bool.noConfusion h

/-- Claim C3: a step whose handler raises an ordinary exception never
aborts the run — (1) any dict step with a hashable name finishes as a
normal return or a user cancellation; (2) a structurally well-formed
workflow document runs to completion the same way; (3) when the dispatch
raises an exception the step wrapper records `步骤执行失败:` + message
under the step name and returns `None`; (4) after a step returns, the
remaining steps of the list still execute from the resulting state. -/
theorem c3_no_uncaught :
    (∀ (env : Env) (fuel : Nat) (entries ctx : List (String × Value)),
        stepNameOkB entries = true →
        ∀ st, isOkOrInterrupt (runM (executeStep env fuel (.dict entries) ctx) st).1 = true)
    ∧ (∀ (env : Env) (wf : Value), workflowOkB wf = true →
        ∀ st, isOkOrInterrupt (runM (executeWorkflow env wf) st).1 = true)
    ∧ (∀ (env : Env) (fuel : Nat) (entries ctx : List (String × Value))
        (st : ExecState) (name m : String) (st₁ : ExecState),
        dictGet entries "step" = some (.str name) →
        runM (dispatchStep (execStepsF env fuel) env entries ctx) st = (.error (.err m), st₁) →
        runM (executeStep env fuel (.dict entries) ctx) st
          = (.ok Value.none,
             { st₁ with results := dictSet st₁.results name (failDict ("步骤执行失败: " ++ m)) }))
    ∧ (∀ (env : Env) (fuel : Nat) (step : Value) (rest : List Value)
        (ctx : List (String × Value)) (st : ExecState) (r1 : Value) (st1 : ExecState),
        runM (executeStep env fuel step ctx) st = (.ok r1, st1) →
        runM (execStepsF env (fuel + 1) (.list (step :: rest)) ctx) st
          = runM (rest.foldlM (fun result s => do
              let r ← executeStepAt (execStepsF env fuel) env s ctx
              pure (if r.isNone then result else r))
              (if r1.isNone then Value.none else r1) : M Value) st1) := by
  refine ⟨?_, ?_, ?_, ?_⟩
  · intro env fuel entries ctx h st
    exact executeStep_noEscape env fuel entries ctx h st
  · intro env wf h st
    exact executeWorkflow_noEscape env wf h st
  · intro env fuel entries ctx st name m st₁ hname hrun
    have hsn := stepNameOf_of_name entries name "未知步骤" hname
    unfold executeStep executeStepAt
    dsimp only
    rw [hsn, runM_tryCatch, hrun]
    rfl
  · intro env fuel step rest ctx st r1 st1 hrun
    have hrun' : runM (executeStepAt (execStepsF env fuel) env step ctx) st
        = (.ok r1, st1) := hrun
    show runM ((step :: rest).foldlM (fun result s => do
        let r ← executeStepAt (execStepsF env fuel) env s ctx
        pure (if r.isNone then result else r)) Value.none : M Value) st = _
    rw [List.foldlM_cons, runM_bind, runM_bind, hrun']
    rfl

/-- Claim C3, witness instance: a workflow whose first step's handler
raises (`config` is an int) still completes, and the malformed step plus
the following print step are both recorded. -/
theorem c3_no_uncaught_witness :
    workflowOkB wfMalformed = true
      ∧ isOkOrInterrupt (runM (executeWorkflow sampleEnv wfMalformed) (initState false [])).1
        = true :=
  ⟨rfl, c3_no_uncaught.2.1 sampleEnv wfMalformed rfl (initState false [])⟩

/-! ### Claim C9 — failed input validation records a failure and stores
nothing -/

theorem runM_seq_pure {α β : Type} (a : α) (f : α → M β) (st : ExecState) :
    runM (pure a >>= f) st = runM (f a) st := by
  rw [runM_bind, runM_pure]

theorem runM_bind_liftE_ok {α β : Type} (v : α) (f : α → M β) (st : ExecState) :
    runM (liftE (Except.ok v) >>= f) st = runM (f v) st := by
  rw [runM_bind, runM_liftE]

theorem runM_tryCatch_ok {α : Type} (x : M α) (h : PyExn → M α) (st st' : ExecState)
    (a : α) (hx : runM x st = (.ok a, st')) : runM (tryCatch x h) st = (.ok a, st') := by
  rw [runM_tryCatch, hx]

/-- Claim C9: an input step whose validation fails (here: any entries,
config, queued line and validation outcome `(False, _, msg)` of
`_validate_input`, with an empty default so the raw line is validated)
records `输入验证失败: msg` as a failed `StepResult` under the step name,
returns `None`, and leaves the stored-data map untouched — the output
variable is written only when validation succeeds. -/
theorem c9_input_validation_failure (entries cfgd : List (String × Value))
    (name var s msg : String) (vv : Value) (rest : List InputEvent) (st : ExecState)
    (hname : dictGet entries "step" = some (.str name))
    (hcfg : dictGet entries "config" = some (.dict cfgd))
    (hout : dictGet entries "output" = some (.str var))
    (hvar : var ≠ "")
    (hdef : (dictGet cfgd "default").getD (.str "") = .str "")
    (hq : st.inputQueue = .line s :: rest)
    (hval : validateInput (.str (pyStrip s)) (.dict cfgd) = .ok (false, vv, msg)) :
    runM (executeInputStep entries) st
      = (.ok Value.none,
         { st with inputQueue := rest,
                   results := dictSet st.results name
                     (failDict ("输入验证失败: " ++ msg)) })
    ∧ ((runM (executeInputStep entries) st).2).storedData = st.storedData := by
  have hsn := stepNameOf_of_name entries name "input_step" hname
  have hmain : runM (executeInputStep entries) st
      = (.ok Value.none,
         { st with inputQueue := rest,
                   results := dictSet st.results name
                     (failDict ("输入验证失败: " ++ msg)) }) := by
    dsimp only [executeInputStep]
    rw [hsn]
    simp only [hcfg, hout, Option.getD_some]
    apply runM_tryCatch_ok
    rw [show pyGet (Value.dict cfgd) "prompt" (Value.str "请输入:")
        = Except.ok ((dictGet cfgd "prompt").getD (Value.str "请输入:")) from rfl,
      runM_bind_liftE_ok,
      show pyGet (Value.dict cfgd) "default" (Value.str "")
        = Except.ok ((dictGet cfgd "default").getD (Value.str "")) from rfl,
      hdef, runM_bind_liftE_ok]
    have hvt : ¬((!pyTruthy (Value.str var)) = true) := by
      show ¬((!(var != "")) = true)
      rw [bne, Bool.not_not, beq_iff_eq]
      exact hvar
    rw [if_neg hvt, if_neg (show ¬(pyTruthy (Value.str "") = true) from by decide),
      runM_seq_pure]
    have hpop : runM popInput st = (.ok s, { st with inputQueue := rest }) := by
      rw [runM_popInput, hq]
    rw [runM_bind, hpop]
    dsimp only
    rw [show (!pyTruthy (Value.str (pyStrip s)) && pyTruthy (Value.str ""))
        = false from Bool.and_false _,
      if_neg (show ¬(false = true) from by simp), hval, runM_bind_liftE_ok,
      if_neg (show ¬(((false, vv, msg) : Bool × Value × String).1 = true) from by simp),
      runM_bind, runM_setResult]
    rfl
  exact ⟨hmain, by rw [hmain]⟩

/-- Claim C9, witness instance: the integer input step rejects the typed
line `42` against `max = 10`, records the failure under `s1`, and the
stored-data map stays empty. -/
theorem c9_input_validation_failure_witness :
    validateInput (Value.str (pyStrip "42"))
        (Value.dict [("type", Value.str "integer"), ("required", Value.bool true),
          ("min", Value.int 1), ("max", Value.int 10)])
        = .ok (false, Value.none, "数值不能大于 10")
      ∧ runM (executeInputStep inputStepEntries) (initState false [.line "42"])
        = (.ok Value.none,
           { initState false [.line "42"] with
               inputQueue := [],
               results := dictSet (initState false [.line "42"]).results "s1"
                 (failDict ("输入验证失败: " ++ "数值不能大于 10")) }) :=
  ⟨rfl,
   (c9_input_validation_failure inputStepEntries
      [("type", Value.str "integer"), ("required", Value.bool true),
        ("min", Value.int 1), ("max", Value.int 10)]
      "s1" "name" "42" "数值不能大于 10" Value.none [] (initState false [.line "42"])
      rfl rfl rfl (by decide) rfl rfl rfl).1⟩

/-! ### Claim C6 — the layered template context of `_build_full_context` -/

theorem dictGet_none_not_mem (l : List (String × Value)) (k : String)
    (h : k ∉ l.map Prod.fst) : dictGet l k = Option.none := by
  induction l with
  | nil => rfl
  | cons kv rest ih =>
      obtain ⟨a, b⟩ := kv
      simp only [List.map_cons, List.mem_cons, not_or] at h
      obtain ⟨h1, h2⟩ := h
      simp only [dictGet]
      rw [if_neg (fun hh => h1 hh.symm)]
      exact ih h2

theorem dictGet_dictUpdate (d src : List (String × Value)) (k : String)
    (h : (src.map Prod.fst).Nodup) :
    dictGet (dictUpdate d src) k
      = match dictGet src k with
        | some v => some v
        | Option.none => dictGet d k := by
  induction src generalizing d with
  | nil => rfl
  | cons kv rest ih =>
      obtain ⟨a, b⟩ := kv
      simp only [List.map_cons, List.nodup_cons] at h
      obtain ⟨ha, hrest⟩ := h
      show dictGet (dictUpdate (dictSet d a b) rest) k = _
      rw [ih (dictSet d a b) hrest]
      by_cases hk : a = k
      · subst hk
        rw [dictGet_none_not_mem rest a ha, dictGet_dictSet_self]
        simp [dictGet]
      · rw [dictGet_dictSet_ne d a k b (fun hh => hk hh.symm),
          show dictGet ((a, b) :: rest) k = dictGet rest k from by simp [dictGet, hk]]

theorem dictGet_map_resultView (res : List (String × Value)) (k : String) :
    dictGet (res.map (fun kv => (kv.1, resultView kv.2))) k
      = (dictGet res k).map resultView := by
  induction res with
  | nil => rfl
  | cons kv rest ih =>
      obtain ⟨a, b⟩ := kv
      by_cases h : a = k <;> simp [dictGet, h, ih]

theorem map_fst_resultView (res : List (String × Value)) :
    (res.map (fun kv => (kv.1, resultView kv.2))).map Prod.fst = res.map Prod.fst := by
  induction res with
  | nil => rfl
  | cons kv rest ih => simp [ih]

theorem foldl_resultView_eq (res : List (String × Value)) (fc : List (String × Value)) :
    res.foldl (fun acc kv => dictSet acc kv.1 (resultView kv.2)) fc
      = dictUpdate fc (res.map (fun kv => (kv.1, resultView kv.2))) := by
  induction res generalizing fc with
  | nil => rfl
  | cons kv rest ih =>
      obtain ⟨a, b⟩ := kv
      exact ih (dictSet fc a (resultView b))

theorem dictGet_core (sd res : List (String × Value)) (k : String)
    (hsd : (sd.map Prod.fst).Nodup) (hres : (res.map Prod.fst).Nodup) :
    dictGet (dictUpdate (dictUpdate [] sd)
        (res.map (fun kv => (kv.1, resultView kv.2)))) k
      = match (dictGet res k).map resultView with
        | some v => some v
        | Option.none => dictGet sd k := by
  rw [dictGet_dictUpdate _ _ k (by rw [map_fst_resultView]; exact hres),
    dictGet_map_resultView, dictGet_dictUpdate _ _ k hsd]
  rcases dictGet res k with _ | v
  · rcases dictGet sd k with _ | w <;> rfl
  · rfl

/-- Claim C6: every lookup against the full template context resolves
through the documented layers — `stored_data` and `results` are always
bound to the raw maps, every other key is served by the ad hoc context
when one is present, then by the per-step view of the results map
(`results[k].result` for a dict result with a `result` key, `results[k]`
itself otherwise), and finally by the stored-data map. -/
theorem c6_full_context (sd res ctx : List (String × Value)) (k : String)
    (hsd : (sd.map Prod.fst).Nodup) (hres : (res.map Prod.fst).Nodup)
    (hctx : (ctx.map Prod.fst).Nodup) :
    dictGet (buildFullContext sd res ctx) k
      = if k = "stored_data" then some (.dict sd)
        else if k = "results" then some (.dict res)
        else
          match (if ctx.length > 0 then dictGet ctx k else Option.none) with
          | some v => some v
          | Option.none =>
              match (dictGet res k).map resultView with
              | some v => some v
              | Option.none => dictGet sd k := by
  dsimp only [buildFullContext]
  rw [foldl_resultView_eq, dictGet_dictUpdate _ _ k (by
    rw [show List.map Prod.fst [("stored_data", Value.dict sd), ("results", Value.dict res)]
        = ["stored_data", "results"] from rfl]
    decide)]
  by_cases h1 : k = "stored_data"
  · subst h1
    rfl
  · by_cases h2 : k = "results"
    · subst h2
      rfl
    · rw [show dictGet [("stored_data", Value.dict sd), ("results", Value.dict res)] k
          = Option.none from by
        simp only [dictGet]
        rw [if_neg (fun hh => h1 hh.symm), if_neg (fun hh => h2 hh.symm)],
        if_neg h1, if_neg h2]
      by_cases hc : ctx.length > 0
      · rw [if_pos hc, if_pos hc, dictGet_dictUpdate _ _ k hctx]
        rcases dictGet ctx k with _ | v
        · exact dictGet_core sd res k hsd hres
        · rfl
      · rw [if_neg hc, if_neg hc]
        exact dictGet_core sd res k hsd hres

/-- Claim C6, witness instance: the ad hoc context overlays the per-step
view and the stored data for the key `x`; the reserved keys return the
raw maps. -/
theorem c6_full_context_witness :
    (([("x", Value.int 1)].map Prod.fst).Nodup
        ∧ ([("s1", Value.dict [("success", Value.bool true),
            ("result", Value.str "r")])].map Prod.fst).Nodup
        ∧ ([("x", Value.int 9)].map Prod.fst).Nodup)
      ∧ dictGet (buildFullContext [("x", Value.int 1)]
          [("s1", Value.dict [("success", Value.bool true), ("result", Value.str "r")])]
          [("x", Value.int 9)]) "x" = some (Value.int 9) :=
  ⟨⟨by decide, by decide, by decide⟩,
   (c6_full_context [("x", Value.int 1)]
      [("s1", Value.dict [("success", Value.bool true), ("result", Value.str "r")])]
      [("x", Value.int 9)] "x" (by decide) (by decide) (by decide)).trans rfl⟩

/-! ### Claim C8 — unresolved variable tokens survive rendering -/

theorem scanLen_clean : ∀ (kd : List Char), (∀ c ∈ kd, c ≠ '}' ∧ c ≠ '\n') →
    scanLen (kd ++ ['}', '}']) = some kd.length := by
  intro kd
  induction kd with
  | nil => intro _; rfl
  | cons c rest ih =>
      intro h
      have hc := h c (List.mem_cons_self c rest)
      have hr : ∀ c ∈ rest, c ≠ '}' ∧ c ≠ '\n' :=
        fun x hx => h x (List.mem_cons_of_mem c hx)
      show scanLen (c :: (rest ++ ['}', '}'])) = some (rest.length + 1)
      rw [show scanLen (c :: (rest ++ ['}', '}']))
          = if c = '\n' then Option.none
            else (scanLen (rest ++ ['}', '}'])).map (· + 1) from ?_]
      · rw [if_neg hc.2, ih hr]; rfl
      · rcases h2 : rest ++ ['}', '}'] with _ | ⟨a, l⟩
        · exact absurd (congrArg List.length h2) (by simp)
        · simp [scanLen, hc.1]

theorem renderVarsF_nil (ctx : Value) : ∀ (fuel : Nat), renderVarsF ctx fuel [] = [] := by
  intro fuel
  cases fuel <;> rfl

theorem varRepl_unres (k : String) (ctx : Value)
    (hv : getValue (pyStrip k) ctx = Value.none) :
    varRepl ctx k.data = '{' :: '{' :: (k.data ++ ['}', '}']) := by
  dsimp only [varRepl]
  split
  · rfl
  · have hv' : getValue (pyStrip (String.mk k.data)) ctx = Value.none := hv
    rw [hv']
    rfl

theorem renderVariables_unres (k : String) (ctx : Value)
    (hclean : ∀ c ∈ k.data, c ≠ '{' ∧ c ≠ '}' ∧ c ≠ '\n')
    (hv : getValue (pyStrip k) ctx = Value.none) :
    renderVariables ("\x7b\x7b" ++ k ++ "\x7d\x7d") ctx = "\x7b\x7b" ++ k ++ "\x7d\x7d" := by
  have h1 : ("\x7b\x7b" ++ k ++ "\x7d\x7d").data = '{' :: '{' :: (k.data ++ ['}', '}']) := by
    rw [String.data_append, String.data_append]
    rfl
  have hs : scanLen (k.data ++ ['}', '}']) = some k.data.length :=
    scanLen_clean k.data (fun c hc => ⟨(hclean c hc).2.1, (hclean c hc).2.2⟩)
  unfold renderVariables renderVarsL
  rw [h1]
  have hlen : ('{' :: '{' :: (k.data ++ ['}', '}'])).length = k.data.length + 4 := by
    simp [List.length_append]
  rw [hlen]
  rw [show renderVarsF ctx (k.data.length + 4) ('{' :: '{' :: (k.data ++ ['}', '}']))
      = (match scanLen (k.data ++ ['}', '}']) with
         | some n =>
             varRepl ctx ((k.data ++ ['}', '}']).take n)
               ++ renderVarsF ctx (k.data.length + 3) ((k.data ++ ['}', '}']).drop (n + 2))
         | Option.none =>
             '{' :: renderVarsF ctx (k.data.length + 3)
               ('{' :: (k.data ++ ['}', '}']))) from rfl, hs]
  show String.mk (varRepl ctx ((k.data ++ ['}', '}']).take k.data.length)
      ++ renderVarsF ctx (k.data.length + 3)
        ((k.data ++ ['}', '}']).drop (k.data.length + 2))) = _
  rw [List.take_left, show (k.data ++ ['}', '}']).drop (k.data.length + 2)
      = List.drop 2 ['}', '}'] from List.drop_append 2,
    show List.drop 2 ['}', '}'] = [] from rfl, renderVarsF_nil,
    List.append_nil, varRepl_unres k ctx hv, ← h1]

theorem containsSub_hash_clean : ∀ (t : List Char), (∀ c ∈ t, c ≠ '{') →
    containsSub ['{', '{', '#'] t = false := by
  intro t
  induction t with
  | nil => intro _; rfl
  | cons c rest ih =>
      intro h
      have hc : c ≠ '{' := h c (List.mem_cons_self c rest)
      have hb : (('{' : Char) == c) = false := by
        rw [beq_eq_false_iff_ne]
        exact fun hh => hc hh.symm
      show (List.isPrefixOf ['{', '{', '#'] (c :: rest)
          || containsSub ['{', '{', '#'] rest) = false
      rw [show List.isPrefixOf ['{', '{', '#'] (c :: rest)
          = ((('{' : Char) == c) && List.isPrefixOf ['{', '#'] rest) from rfl,
        hb, Bool.false_and, Bool.false_or]
      exact ih (fun x hx => h x (List.mem_cons_of_mem c hx))

theorem containsSub_hash_token (k : String)
    (hclean : ∀ c ∈ k.data, c ≠ '{')
    (hhash : strStartsWith k "#" = false) :
    containsSub ['{', '{', '#'] ('{' :: '{' :: (k.data ++ ['}', '}'])) = false := by
  have ht : ∀ c ∈ k.data ++ ['}', '}'], c ≠ '{' := by
    intro c hc
    rcases List.mem_append.mp hc with h | h
    · exact hclean c h
    · simp only [List.mem_cons, List.not_mem_nil, or_false, or_self] at h
      subst h; decide
  have h3 : containsSub ['{', '{', '#'] (k.data ++ ['}', '}']) = false :=
    containsSub_hash_clean _ ht
  have h2 : List.isPrefixOf ['{', '{', '#'] ('{' :: (k.data ++ ['}', '}'])) = false := by
    rcases hk : k.data with _ | ⟨c, kd'⟩
    · decide
    · have hc : c ≠ '{' := hclean c (hk ▸ List.mem_cons_self c kd')
      have hb : (('{' : Char) == c) = false := by
        rw [beq_eq_false_iff_ne]
        exact fun hh => hc hh.symm
      show ((('{' : Char) == c) && List.isPrefixOf ['#'] (kd' ++ ['}', '}'])) = false
      rw [hb]
      rfl
  have h1 : List.isPrefixOf ['{', '{', '#'] ('{' :: '{' :: (k.data ++ ['}', '}'])) = false := by
    rcases hk : k.data with _ | ⟨c, kd'⟩
    · decide
    · have hc : (('#' : Char) == c) = false := by
        have hh := hhash
        unfold strStartsWith at hh
        rw [hk] at hh
        show (('#' : Char) == c) = false
        rcases hb : (('#' : Char) == c) with _ | _
        · rfl
        · exact absurd hh (by
            rw [show List.isPrefixOf "#".data (c :: kd')
                = ((('#' : Char) == c) && List.isPrefixOf [] kd') from rfl, hb]
            simp)
      show ((('#' : Char) == c) && List.isPrefixOf [] (kd' ++ ['}', '}'])) = false
      rw [hc]
      rfl
  show (List.isPrefixOf ['{', '{', '#'] ('{' :: '{' :: (k.data ++ ['}', '}']))
      || (List.isPrefixOf ['{', '{', '#'] ('{' :: (k.data ++ ['}', '}']))
        || containsSub ['{', '{', '#'] (k.data ++ ['}', '}']))) = false
  rw [h1, h2, h3]
  rfl

theorem renderCondsF_id (ctx : Value) : ∀ (fuel : Nat) (l : List Char),
    containsSub ['{', '{', '#'] l = false → renderCondsF ctx fuel l = l := by
  intro fuel l
  induction fuel, l using renderCondsF.induct with
  | ctx => exact ctx
  | case1 l => intro _; rfl
  | case2 fuel => intro _; rfl
  | case3 fuel rest nn ht ih =>
      intro h
      exfalso
      rw [show containsSub ['{', '{', '#'] ('{' :: '{' :: '#' :: rest)
          = (List.isPrefixOf ['{', '{', '#'] ('{' :: '{' :: '#' :: rest)
            || containsSub ['{', '{', '#'] ('{' :: '#' :: rest)) from rfl,
        show List.isPrefixOf ['{', '{', '#'] ('{' :: '{' :: '#' :: rest) = true by
          simp [List.isPrefixOf]] at h
      simp at h
  | case4 fuel rest ht ih =>
      intro h
      exfalso
      rw [show containsSub ['{', '{', '#'] ('{' :: '{' :: '#' :: rest)
          = (List.isPrefixOf ['{', '{', '#'] ('{' :: '{' :: '#' :: rest)
            || containsSub ['{', '{', '#'] ('{' :: '#' :: rest)) from rfl,
        show List.isPrefixOf ['{', '{', '#'] ('{' :: '{' :: '#' :: rest) = true by
          simp [List.isPrefixOf]] at h
      simp at h
  | case5 fuel c rest hg ih =>
      intro h
      rw [show containsSub ['{', '{', '#'] (c :: rest)
          = (List.isPrefixOf ['{', '{', '#'] (c :: rest)
            || containsSub ['{', '{', '#'] rest) from rfl] at h
      rcases Bool.or_eq_false_iff.mp h with ⟨h1, h2⟩
      rw [show renderCondsF ctx (fuel + 1) (c :: rest)
          = c :: renderCondsF ctx fuel rest from ?_]
      · rw [ih h2]
      · simp only [renderCondsF]

theorem renderConditionBlocks_token (k : String) (ctx : Value)
    (hclean : ∀ c ∈ k.data, c ≠ '{')
    (hhash : strStartsWith k "#" = false) :
    renderConditionBlocks ("\x7b\x7b" ++ k ++ "\x7d\x7d") ctx
      = "\x7b\x7b" ++ k ++ "\x7d\x7d" := by
  have h1 : ("\x7b\x7b" ++ k ++ "\x7d\x7d").data = '{' :: '{' :: (k.data ++ ['}', '}']) := by
    rw [String.data_append, String.data_append]
    rfl
  unfold renderConditionBlocks renderCondsL
  rw [h1, renderCondsF_id ctx _ _ (containsSub_hash_token k hclean hhash), ← h1]

/-- Claim C8: for a key with no brace or newline characters that does not
start with `#`, if the dotted-path lookup of the (stripped) key fails in
the context, rendering `\x7b\x7bk\x7d\x7d` returns the token unchanged —
it is never replaced by the empty string. -/
theorem c8_unresolved_token_unchanged (k : String) (ctx : Value)
    (hclean : ∀ c ∈ k.data, c ≠ '{' ∧ c ≠ '}' ∧ c ≠ '\n')
    (hhash : strStartsWith k "#" = false)
    (hv : getValue (pyStrip k) ctx = Value.none) :
    render ("\x7b\x7b" ++ k ++ "\x7d\x7d") ctx = "\x7b\x7b" ++ k ++ "\x7d\x7d" := by
  have h1 : ("\x7b\x7b" ++ k ++ "\x7d\x7d").data = '{' :: '{' :: (k.data ++ ['}', '}']) := by
    rw [String.data_append, String.data_append]
    rfl
  have hne : ("\x7b\x7b" ++ k ++ "\x7d\x7d") ≠ "" := by
    intro h
    have h2 := congrArg String.data h
    rw [h1] at h2
    exact absurd h2 (by simp)
  unfold render
  rw [if_neg hne, renderVariables_unres k ctx hclean hv,
    renderConditionBlocks_token k ctx (fun c hc => (hclean c hc).1) hhash]

/-- Claim C8, witness instance: the key `missing.path` is absent from the
a/b context, and the token survives both passes. -/
theorem c8_unresolved_token_unchanged_witness :
    strStartsWith "missing.path" "#" = false
      ∧ getValue (pyStrip "missing.path") ctxAB = Value.none
      ∧ render "\x7b\x7bmissing.path\x7d\x7d" ctxAB = "\x7b\x7bmissing.path\x7d\x7d" :=
  ⟨rfl, rfl, by
    have h := c8_unresolved_token_unchanged "missing.path" ctxAB
      (by decide) rfl rfl
    rw [show ("\x7b\x7b" ++ "missing.path" ++ "\x7d\x7d" : String)
        = "\x7b\x7bmissing.path\x7d\x7d" from rfl] at h
    exact h⟩

/-- Claim C4, witness instance for the amended theorem: on the two-token
string the greedy middle is `a\x7d\x7d \x7b\x7bb`, its lookup in the a/b
context fails, and the original string is stored. -/
theorem c4_resolve_inputs_amended_witness :
    (strContains "\x7b\x7b" "\x7b\x7ba\x7d\x7d \x7b\x7bb\x7d\x7d"
        || strContains "\x7d\x7d" "\x7b\x7ba\x7d\x7d \x7b\x7bb\x7d\x7d") = true
      ∧ (pyStrip "\x7b\x7ba\x7d\x7d \x7b\x7bb\x7d\x7d").data
        = '{' :: '{' :: (['a', '}', '}', ' ', '{', '{', 'b'] ++ ['}', '}'])
      ∧ resolveInputValue ctxAB (.str "\x7b\x7ba\x7d\x7d \x7b\x7bb\x7d\x7d")
        = .str "\x7b\x7ba\x7d\x7d \x7b\x7bb\x7d\x7d" :=
  ⟨by decide, by decide,
   ((c4_resolve_inputs_amended "\x7b\x7ba\x7d\x7d \x7b\x7bb\x7d\x7d" ctxAB (by decide)).1
      ['a', '}', '}', ' ', '{', '{', 'b'] (by decide) (by decide)).trans rfl⟩

end WorkflowProof
